import Mathlib

/-!
Verification of the smart-mirror gesture engine (`src/environment/script.js`).

The engine turns per-frame hand-landmark observations into pinch/drag/button
events, swipe-based mode switching, and a photo-capture countdown.  This file
is a shallow embedding of that engine: DOM geometry is carried as rational
coordinates, `Date.now()` timestamps as integers, and a thrown JavaScript
`TypeError` (reading a property of `undefined`, as happens when a landmark
index is missing) is modelled as `Option.none` propagating out of the
per-frame processing.  External outputs that never feed back into engine
decisions (status text, cursor element, CSS transitions, the photo download)
are not part of the state.
-/

namespace SmartMirror

/-- a hand landmark: a normalized point delivered by the tracker.  The engine
only ever reads `x` and `y` (`distance` is `Math.hypot` over the plane);
`z` is delivered by the tracker but never consumed, as in the source. -/
structure Pt where
  x : ℚ
  y : ℚ
  z : ℚ
deriving DecidableEq

/-- script.js:22 `const BUTTON_COOLDOWN_MS = 800`. -/
def BUTTON_COOLDOWN_MS : ℤ := 800

/-- script.js:23 `const SNAP_SIZE = 16`. -/
def SNAP_SIZE : ℚ := 16

/-- script.js:24 `const ALIGN_THRESHOLD = 140`. -/
def ALIGN_THRESHOLD : ℚ := 140

/-- script.js:25 `const BUTTON_HIT_EXPAND = 24`. -/
def BUTTON_HIT_EXPAND : ℚ := 24

/-- script.js:26 `const SWIPE_THRESHOLD = 0.2`. -/
def SWIPE_THRESHOLD : ℚ := 0.2

/-- script.js:27 `const SWIPE_TIME_MAX = 900`. -/
def SWIPE_TIME_MAX : ℤ := 900

/-- script.js:28 `const SWIPE_COOLDOWN_MS = 900`. -/
def SWIPE_COOLDOWN_MS : ℤ := 900

/-- script.js:29 `const GESTURE_COOLDOWN_MS = 1200`. -/
def GESTURE_COOLDOWN_MS : ℤ := 1200

/-- script.js:96-100 `distance(a, b) = Math.hypot(a.x - b.x, a.y - b.y)`. -/
noncomputable def distance (a b : Pt) : ℝ :=
  Real.sqrt (((a.x - b.x : ℚ) : ℝ) ^ 2 + ((a.y - b.y : ℚ) : ℝ) ^ 2)

/-- the squared planar distance, the radicand of `distance` kept in `ℚ` so
that the engine's pinch test stays decidable. -/
def distSq (a b : Pt) : ℚ :=
  (a.x - b.x) ^ 2 + (a.y - b.y) ^ 2

/-- a DOM bounding box as returned by `getBoundingClientRect`. -/
structure DomRect where
  left : ℚ
  top : ℚ
  width : ℚ
  height : ℚ
deriving DecidableEq

def DomRect.right (r : DomRect) : ℚ := r.left + r.width

def DomRect.bottom (r : DomRect) : ℚ := r.top + r.height

def DomRect.centerX (r : DomRect) : ℚ := r.left + r.width / 2

def DomRect.centerY (r : DomRect) : ℚ := r.top + r.height / 2

/-- a control button (`.control-btn`): its action identifier, screen
rectangle, and the computed-style fields that `hitTestButtons`
(script.js:151-171) inspects to exclude invisible buttons. -/
structure ButtonEl where
  action : String
  rect : DomRect
  display : String
  visibility : String
  opacity : String
  pointerEvents : String
deriving DecidableEq

/-- a widget card (`.widget`).  `rect0` is its laid-out box with a zero
offset; the DOM's rendered box is `rect0` translated by the current offset
`(ox, oy)` (the CSS `translate` transform applied by the source), so the
`baseCenter` stored by `initWidgetState` (rendered center minus offset) is
the center of `rect0`. -/
structure Widget where
  id : String
  rect0 : DomRect
  ox : ℚ
  oy : ℚ
deriving DecidableEq

/-- the rendered bounding box of a widget (layout box shifted by its
offset transform), what `el.getBoundingClientRect()` reports. -/
def Widget.rect (w : Widget) : DomRect :=
  ⟨w.rect0.left + w.ox, w.rect0.top + w.oy, w.rect0.width, w.rect0.height⟩

/-- the base center maintained by `initWidgetState` (script.js:53-74). -/
def Widget.baseCenterX (w : Widget) : ℚ := w.rect0.centerX

def Widget.baseCenterY (w : Widget) : ℚ := w.rect0.centerY

/-- script.js:31 `let mode = 'mirror'` — the two application modes. -/
inductive Mode where
  | mirror
  | tryon
deriving DecidableEq

/-- script.js:19 `let pinchMode = 'none'` — `none | drag | button | idle`. -/
inductive PinchMode where
  | pnone
  | drag
  | button
  | idle
deriving DecidableEq

/-- the engine's mutable globals (script.js:17-40), plus `fired`, a ghost
trace prepending one `(timestamp, action)` entry at the single site where a
pinch press activates a button (script.js:459-463, the `runAction` /
`flashButton` call); it lets temporal statements talk about "a button
fired" and corresponds to no source variable. -/
structure EngineState where
  draggingId : Option String
  pinchActive : Bool
  pinchMode : PinchMode
  editMode : Bool
  lastButtonPress : ℤ
  mode : Mode
  lastSwipeX : Option ℚ
  lastSwipeTime : ℤ
  swipeStartX : Option ℚ
  swipeStartTime : ℤ
  lastGestureTime : ℤ
  isCountingDown : Bool
  counter : ℤ
  photoReady : Bool
  captureDataUrl : Bool
  widgets : List Widget
  fired : List (ℤ × String)
deriving DecidableEq

/-- the per-frame environment read from the DOM and the clock: the mirror
element's rectangle, the window size, the button list, and `Date.now()`
(taken once per frame; the source samples it separately inside
`processPinch`, `detectSwipes` and `detectThumbGestures`, all within one
synchronous callback). -/
structure Env where
  mirrorRect : DomRect
  winW : ℚ
  winH : ℚ
  buttons : List ButtonEl
  now : ℤ
deriving DecidableEq

/-- widget lookup by id (the source's `widgetState[id]` map access). -/
def findWidget (id : String) (ws : List Widget) : Option Widget :=
  ws.find? (fun w => w.id == id)

/-- script.js:84-94 `setWidgetPosition`: no-op unless the widget exists and
edit mode is on; otherwise the offset becomes pointer minus base center. -/
def setWidgetPosition (id : String) (x y : ℚ) (s : EngineState) : EngineState :=
  match findWidget id s.widgets with
  | Option.none => s
  | some _ =>
    if s.editMode then
      { s with widgets := s.widgets.map (fun w =>
          if w.id == id then
            { w with ox := x - w.baseCenterX, oy := y - w.baseCenterY }
          else w) }
    else s

/-- the containment test of `widgetUnderPoint` (script.js:135). -/
def widgetContains (px py : ℚ) (w : Widget) : Bool :=
  decide (px ≥ w.rect.left ∧ px ≤ w.rect.right ∧ py ≥ w.rect.top ∧ py ≤ w.rect.bottom)

/-- script.js:131-140 `widgetUnderPoint`: a `forEach` that keeps overwriting
`targetId`, so the LAST containing widget in enumeration order wins. -/
def widgetUnderPoint (px py : ℚ) (ws : List Widget) : Option String :=
  ws.foldl (fun acc w => if widgetContains px py w then some w.id else acc) Option.none

/-- the computed-style visibility test of `hitTestButtons`
(script.js:153-161). -/
def buttonHidden (b : ButtonEl) : Bool :=
  b.display == "none" || b.visibility == "hidden" || b.opacity == "0" || b.pointerEvents == "none"

/-- the per-button predicate of `hitTestButtons`: visible, and the point is
inside the rectangle expanded by `BUTTON_HIT_EXPAND`. -/
def buttonMatches (px py : ℚ) (b : ButtonEl) : Bool :=
  if buttonHidden b then false
  else
    decide (px ≥ b.rect.left - BUTTON_HIT_EXPAND ∧ px ≤ b.rect.right + BUTTON_HIT_EXPAND ∧
      py ≥ b.rect.top - BUTTON_HIT_EXPAND ∧ py ≤ b.rect.bottom + BUTTON_HIT_EXPAND)

/-- script.js:151-171 `hitTestButtons`: `Array.find`, so the FIRST matching
button in enumeration order wins. -/
def hitTestButtons (px py : ℚ) (bs : List ButtonEl) : Option ButtonEl :=
  bs.find? (buttonMatches px py)

/-- script.js:178-186 `setEditMode`: unconditionally stores the flag (there
is no mode guard) and clears the drag binding when turning it off. -/
def setEditMode (flag : Bool) (s : EngineState) : EngineState :=
  if flag then { s with editMode := flag }
  else { s with editMode := flag, draggingId := Option.none }

/-- script.js:188-198 `resetPanels`: every widget offset back to `(0,0)`;
`initWidgetState` then re-derives base centers, which leaves our `rect0`
unchanged. -/
def resetPanels (s : EngineState) : EngineState :=
  { s with widgets := s.widgets.map (fun w => { w with ox := 0, oy := 0 }) }

/-- script.js:313-319 `hidePhotoPreview`. -/
def hidePhotoPreview (s : EngineState) : EngineState :=
  { s with photoReady := false, captureDataUrl := false }

/-- script.js:342-355 `capturePhoto`: draws the live frame to the reusable
canvas and records the payload; modelled as the payload flag turning on. -/
def capturePhoto (s : EngineState) : EngineState :=
  { s with captureDataUrl := true, photoReady := true }

/-- script.js:321-340 `triggerShutter`: early-returns unless in try-on mode
and not already counting down; otherwise hides any preview and starts the
3-tick countdown. -/
def triggerShutter (s : EngineState) : EngineState :=
  if s.mode ≠ Mode.tryon ∨ s.isCountingDown then s
  else
    let s1 := hidePhotoPreview s
    { s1 with counter := 3, isCountingDown := true }

/-- one firing of the interval scheduled by `triggerShutter`
(script.js:329-339, one tick per second): decrement the counter; at zero
clear the interval and capture. -/
def tickCountdown (s : EngineState) : EngineState :=
  let c := s.counter - 1
  if c ≤ 0 then capturePhoto { s with counter := c, isCountingDown := false }
  else { s with counter := c }

/-- script.js:357-364 `savePhoto`: triggers a browser download when a photo
is ready; the download is an external effect, no engine field changes. -/
def savePhoto (s : EngineState) : EngineState := s

/-- script.js:366-369 `retakePhoto`. -/
def retakePhoto (s : EngineState) : EngineState :=
  triggerShutter (hidePhotoPreview s)

/-- script.js:200-210 `runAction`: three successive `if` tests on the action
string; unrecognized actions fall through all of them. -/
def runAction (action : String) (s : EngineState) : EngineState :=
  let s1 := if action == "reset" then resetPanels s else s
  let s2 := if action == "toggle-edit" then setEditMode (!s1.editMode) s1 else s1
  if action == "shutter" then triggerShutter s2 else s2

/-- script.js:212-242 `setMode`: no-op when the mode is unchanged; otherwise
switch, and on entering either mode cancel any countdown, hide the preview
(only reached via `hidePhotoPreview` in the try-on branch, explicit in the
mirror branch) and reset the swipe trackers.  Entering try-on additionally
forces edit mode off. -/
def setMode (next : Mode) (s : EngineState) : EngineState :=
  if s.mode = next then s
  else
    let s1 := { s with mode := next }
    match next with
    | Mode.tryon =>
      let s2 := setEditMode false s1
      let s3 := hidePhotoPreview s2
      let s4 := { s3 with isCountingDown := false, counter := 0 }
      { s4 with lastSwipeX := Option.none, swipeStartX := Option.none, swipeStartTime := 0 }
    | Mode.mirror =>
      let s2 := { s1 with isCountingDown := false, counter := 0 }
      let s3 := hidePhotoPreview s2
      { s3 with lastSwipeX := Option.none, swipeStartX := Option.none, swipeStartTime := 0 }

/-! ## Snap-to-grid alignment (script.js:371-420 `snapWidget`) -/

/-- JavaScript `Math.round`: round half toward positive infinity. -/
def jsRound (q : ℚ) : ℤ := ⌊q + 1 / 2⌋

/-- script.js:408 `const snap = (v) => Math.round(v / SNAP_SIZE) * SNAP_SIZE`. -/
def snapQ (v : ℚ) : ℚ := (jsRound (v / SNAP_SIZE) : ℚ) * SNAP_SIZE

/-- one alignment candidate: its absolute misalignment distance and the
signed shift that would align the edges. -/
structure Cand where
  dist : ℚ
  delta : ℚ
deriving DecidableEq

/-- script.js:383-387 `candidatesX`: leading edge, center, trailing edge. -/
def candsX (self r : DomRect) : List Cand :=
  [⟨|self.left - r.left|, r.left - self.left⟩,
   ⟨|self.centerX - r.centerX|, r.centerX - self.centerX⟩,
   ⟨|self.right - r.right|, r.right - self.right⟩]

/-- script.js:395-399 `candidatesY`: top edge, center, bottom edge. -/
def candsY (self r : DomRect) : List Cand :=
  [⟨|self.top - r.top|, r.top - self.top⟩,
   ⟨|self.centerY - r.centerY|, r.centerY - self.centerY⟩,
   ⟨|self.bottom - r.bottom|, r.bottom - self.bottom⟩]

/-- script.js:388-393 the body of the candidate loop: adopt the candidate
when strictly closer than the best so far and within the tolerance. -/
def candStep (bd : ℚ × ℚ) (c : Cand) : ℚ × ℚ :=
  if c.dist < bd.1 ∧ c.dist ≤ ALIGN_THRESHOLD then (c.dist, c.delta) else bd

/-- the nested `others.forEach` / `candidates.forEach` loops, starting from
`bestX = ALIGN_THRESHOLD + 1`, `deltaX = 0` (script.js:377-406); returns the
final `(best, delta)` pair. -/
def bestAlign (cls : List (List Cand)) : ℚ × ℚ :=
  cls.foldl (fun bd cl => cl.foldl candStep bd) (ALIGN_THRESHOLD + 1, 0)

/-- the horizontal alignment search of `snapWidget`. -/
def alignX (self : DomRect) (others : List DomRect) : ℚ × ℚ :=
  bestAlign (others.map (candsX self))

/-- the vertical alignment search of `snapWidget`. -/
def alignY (self : DomRect) (others : List DomRect) : ℚ × ℚ :=
  bestAlign (others.map (candsY self))

/-- script.js:410-413: the released widget's new offset — apply the chosen
alignment delta on each axis, then quantize to the grid. -/
def snapOffset (self : DomRect) (others : List DomRect) (off : ℚ × ℚ) : ℚ × ℚ :=
  (snapQ (off.1 + (alignX self others).2), snapQ (off.2 + (alignY self others).2))

/-- script.js:371-420 `snapWidget` on the engine state: read the rendered
rectangles, run the alignment search against all other widgets, store the
quantized offset. -/
def snapWidget (id : String) (s : EngineState) : EngineState :=
  match findWidget id s.widgets with
  | Option.none => s
  | some w =>
    let others := (s.widgets.filter (fun el => el.id != id)).map Widget.rect
    let off := snapOffset w.rect others (w.ox, w.oy)
    { s with widgets := s.widgets.map (fun v =>
        if v.id == id then { v with ox := off.1, oy := off.2 } else v) }

/-! ## Pinch classification and the drag/button lifecycle
(script.js:422-483 `processPinch`) -/

/-- script.js:429 `pinchStrength = distance(thumb, index)`. -/
noncomputable def pinchStrength (thumb index : Pt) : ℝ := distance thumb index

/-- script.js:430 `handSpan = distance(palm, landmarks[9])`. -/
noncomputable def handSpan (palm base : Pt) : ℝ := distance palm base

/-- script.js:431 `threshold = Math.max(handSpan * 0.7, 0.05)`. -/
noncomputable def threshold (palm base : Pt) : ℝ :=
  max (handSpan palm base * 0.7) 0.05

/-- script.js:446 `isPinching = pinchStrength < threshold`, carried out on
the squared distances so the test is decidable; both sides of the source's
comparison are nonnegative, so squaring is exact (proved in the C1
theorem below). -/
def isPinchingB (thumb index palm base : Pt) : Bool :=
  decide (distSq thumb index < max (49 / 100 * distSq palm base) (1 / 400))

/-- script.js:433 the mirrored x coordinate of the index fingertip
(mirroring only outside try-on mode). -/
def mirroredXOf (m : Mode) (index : Pt) : ℚ :=
  if m = Mode.tryon then index.x else 1 - index.x

/-- x of script.js:439-442 `pinchPointUI` (window coordinates, used for
button hit-testing). -/
def uiX (env : Env) (m : Mode) (index : Pt) : ℚ := mirroredXOf m index * env.winW

/-- y of script.js:439-442 `pinchPointUI`. -/
def uiY (env : Env) (index : Pt) : ℚ := index.y * env.winH

/-- x of script.js:434-437 `pinchPointMirror` (mirror coordinates, used for
widget hit-testing and dragging). -/
def mirrorX (env : Env) (m : Mode) (index : Pt) : ℚ :=
  env.mirrorRect.left + mirroredXOf m index * env.mirrorRect.width

/-- y of script.js:434-437 `pinchPointMirror`. -/
def mirrorY (env : Env) (index : Pt) : ℚ :=
  env.mirrorRect.top + index.y * env.mirrorRect.height

/-- script.js:467-475: the widget phase of a pinch start — only in edit
mode and mirror mode, bind the drag to the widget under the pointer, else
stay idle. -/
def startWidgetPhase (pmx pmy : ℚ) (s : EngineState) : EngineState :=
  if s.editMode ∧ s.mode = Mode.mirror then
    match widgetUnderPoint pmx pmy s.widgets with
    | some target => { s with draggingId := some target, pinchMode := PinchMode.drag }
    | Option.none => { s with pinchMode := PinchMode.idle }
  else s

/-- script.js:478-480: every pinching frame in drag mode, move the bound
widget under the pointer. -/
def dragMove (pmx pmy : ℚ) (s : EngineState) : EngineState :=
  match s.draggingId with
  | some d =>
    if s.pinchMode = PinchMode.drag ∧ s.editMode ∧ s.mode = Mode.mirror then
      setWidgetPosition d pmx pmy s
    else s
  | Option.none => s

/-- the body of `processPinch` once the four consumed landmarks are in
hand: classify the pinch; on a pinch-start transition try the buttons
first (early return on a press), then the widget phase; finally the drag
move.  Returns the source's boolean result paired with the new state. -/
def pinchCore (env : Env) (thumb index palm base : Pt) (s : EngineState) :
    Bool × EngineState :=
  let pmx := mirrorX env s.mode index
  let pmy := mirrorY env index
  let pux := uiX env s.mode index
  let puy := uiY env index
  if isPinchingB thumb index palm base then
    if s.pinchActive then (true, dragMove pmx pmy s)
    else
      let s1 := { s with pinchActive := true, pinchMode := PinchMode.idle }
      match hitTestButtons pux puy env.buttons with
      | some btn =>
        if env.now - s1.lastButtonPress > BUTTON_COOLDOWN_MS then
          let s2 := runAction btn.action s1
          (true, { s2 with
                     fired := (env.now, btn.action) :: s2.fired
                     lastButtonPress := env.now
                     pinchMode := PinchMode.button })
        else (true, dragMove pmx pmy (startWidgetPhase pmx pmy s1))
      | Option.none => (true, dragMove pmx pmy (startWidgetPhase pmx pmy s1))
  else (false, s)

/-- script.js:422-483 `processPinch`: reading `landmarks[4]`, `[8]`, `[0]`,
`[9]` and then a field of the result throws a `TypeError` when the index is
absent; `Option.none` models that fault. -/
def processPinch (env : Env) (l : List Pt) (s : EngineState) :
    Option (Bool × EngineState) :=
  match l.get? 4, l.get? 8, l.get? 0, l.get? 9 with
  | some thumb, some index, some palm, some base =>
    some (pinchCore env thumb index palm base s)
  | _, _, _, _ => Option.none

/-! ## Swipe detection (script.js:244-281 `detectSwipes`) -/

/-- one iteration of the `hands.forEach` loop in `detectSwipes`; faults (as
the source would) when landmark 8 is missing. -/
def swipeStep (now : ℤ) (l : List Pt) (s : EngineState) : Option EngineState :=
  match l.get? 8 with
  | Option.none => Option.none
  | some i8 =>
    let mirroredX : ℚ := 1 - i8.x
    match s.swipeStartX with
    | Option.none =>
      some { s with
               swipeStartX := some mirroredX
               swipeStartTime := now
               lastSwipeX := some mirroredX }
    | some sx =>
      let dx := mirroredX - sx
      let dt := now - s.swipeStartTime
      let sinceLast := now - s.lastSwipeTime
      let lastX : ℚ := match s.lastSwipeX with | some v => v | Option.none => 0
      let moving := |mirroredX - lastX| > 0.02
      let s1 :=
        if ¬s.pinchActive ∧ sinceLast > SWIPE_COOLDOWN_MS ∧ dt ≤ SWIPE_TIME_MAX then
          if dx > SWIPE_THRESHOLD ∧ s.mode = Mode.mirror then
            let sm := setMode Mode.tryon s
            { sm with
                lastSwipeTime := now
                swipeStartX := Option.none
                swipeStartTime := 0 }
          else if dx < -SWIPE_THRESHOLD ∧ s.mode = Mode.tryon then
            let sm := setMode Mode.mirror s
            { sm with
                lastSwipeTime := now
                swipeStartX := Option.none
                swipeStartTime := 0 }
          else s
        else s
      let s2 :=
        if dt > SWIPE_TIME_MAX ∨ (¬moving ∧ dt > 280) then
          { s1 with swipeStartX := some mirroredX, swipeStartTime := now }
        else s1
      some { s2 with lastSwipeX := some mirroredX }

/-- script.js:244-281 `detectSwipes` over the hand list. -/
def detectSwipes (now : ℤ) : List (List Pt) → EngineState → Option EngineState
  | [], s => some s
  | l :: rest, s =>
    match swipeStep now l s with
    | some s1 => detectSwipes now rest s1
    | Option.none => Option.none

/-! ## Thumb gestures (script.js:283-311 `detectThumbGestures`) -/

/-- script.js:286 `folded = (tip, pip) => tip.y > pip.y + 0.02`. -/
def folded (tip pip : Pt) : Bool := decide (tip.y > pip.y + 0.02)

/-- script.js:292-296 `fingersFolded`, with JavaScript's short-circuit
`&&`: a false conjunct stops the evaluation, so landmarks further right are
only demanded (and can only fault) when all earlier pairs were folded. -/
def fingersFoldedM (l : List Pt) : Option Bool :=
  match l.get? 8, l.get? 6 with
  | some t1, some p1 =>
    if !folded t1 p1 then some false
    else
      match l.get? 12, l.get? 10 with
      | some t2, some p2 =>
        if !folded t2 p2 then some false
        else
          match l.get? 16, l.get? 14 with
          | some t3, some p3 =>
            if !folded t3 p3 then some false
            else
              match l.get? 20, l.get? 18 with
              | some t4, some p4 => some (folded t4 p4)
              | _, _ => Option.none
          | _, _ => Option.none
      | _, _ => Option.none
  | _, _ => Option.none

/-- the `for ... of hands` loop of `detectThumbGestures`: skip hands whose
fingers are not folded; on the first qualifying hand stamp the gesture
cooldown and save (thumb up) or retake (thumb down); any other thumb
configuration is skipped too. -/
def thumbLoop (now : ℤ) (s : EngineState) : List (List Pt) → Option EngineState
  | [] => some s
  | l :: rest =>
    match fingersFoldedM l with
    | Option.none => Option.none
    | some ff =>
      if !ff then thumbLoop now s rest
      else
        match l.get? 4, l.get? 2, l.get? 0 with
        | some thumbTip, some thumbMcp, some wrist =>
          if thumbTip.y < thumbMcp.y - 0.04 ∧ thumbTip.y < wrist.y - 0.02 then
            some (savePhoto { s with lastGestureTime := now })
          else if thumbTip.y > thumbMcp.y + 0.04 ∧ thumbTip.y > wrist.y + 0.02 then
            some (retakePhoto { s with lastGestureTime := now })
          else thumbLoop now s rest
        | _, _, _ => Option.none

/-- script.js:283-311 `detectThumbGestures`: rate-limited by the shared
gesture cooldown, then the hand loop. -/
def detectThumbGestures (now : ℤ) (hands : List (List Pt)) (s : EngineState) :
    Option EngineState :=
  if now - s.lastGestureTime < GESTURE_COOLDOWN_MS then some s
  else thumbLoop now s hands

/-! ## The frame dispatcher (script.js:485-534 `onResults`) -/

/-- the `hands.forEach(processPinch)` loop accumulating `anyPinch`
(script.js:514-519); a fault in any hand aborts the whole callback, as an
uncaught exception would. -/
def pinchFold (env : Env) : List (List Pt) → Bool → EngineState →
    Option (Bool × EngineState)
  | [], any, s => some (any, s)
  | l :: rest, any, s =>
    match processPinch env l s with
    | some (p, s1) => pinchFold env rest (any || p) s1
    | Option.none => Option.none

/-- script.js:522-524: on release, `if (draggingId && editMode)
snapWidget(draggingId)`. -/
def releaseSnap (s1 : EngineState) : EngineState :=
  match s1.draggingId with
  | some d => if s1.editMode then snapWidget d s1 else s1
  | Option.none => s1

/-- script.js:521-528: the release check after the pinch loop — when no
hand pinched this frame but a session was active, snap the dragged widget
(if bound, and edit mode still on) and reset the session. -/
def releaseStage (any : Bool) (s1 : EngineState) : EngineState :=
  if any = false ∧ s1.pinchActive then
    { releaseSnap s1 with
        pinchActive := false
        draggingId := Option.none
        pinchMode := PinchMode.pnone }
  else s1

/-- script.js:530-533: the tail of `onResults` — swipe detection followed,
only in try-on mode with a photo ready and no countdown running, by thumb
gesture detection. -/
def framePost (env : Env) (hands : List (List Pt)) (s2 : EngineState) :
    Option EngineState :=
  match detectSwipes env.now hands s2 with
  | Option.none => Option.none
  | some s3 =>
    if s3.mode = Mode.tryon ∧ s3.photoReady ∧ ¬s3.isCountingDown then
      detectThumbGestures env.now hands s3
    else some s3

/-- script.js:485-534 `onResults`: an empty frame resets the session and
swipe trackers; otherwise run the pinch loop, the release check, then the
swipe/thumb tail. -/
def onResults (env : Env) (hands : List (List Pt)) (s : EngineState) :
    Option EngineState :=
  if hands.isEmpty then
    some { s with
             pinchActive := false
             pinchMode := PinchMode.pnone
             draggingId := Option.none
             lastSwipeX := Option.none
             swipeStartX := Option.none
             swipeStartTime := 0 }
  else
    match pinchFold env hands false s with
    | Option.none => Option.none
    | some (any, s1) => framePost env hands (releaseStage any s1)

/-! ## Shared facts about the distance function -/

lemma distance_eq_sqrt_distSq (a b : Pt) :
    distance a b = Real.sqrt ((distSq a b : ℚ) : ℝ) := by
  unfold distance distSq
  congr 1
  push_cast
  ring

lemma distSq_cast_nonneg (a b : Pt) : (0 : ℝ) ≤ ((distSq a b : ℚ) : ℝ) := by
  unfold distSq
  push_cast
  positivity

lemma distance_same_y (a b : Pt) (h : a.y = b.y) :
    distance a b = |((a.x - b.x : ℚ) : ℝ)| := by
  unfold distance
  rw [h]
  rw [sub_self]
  norm_num
  exact Real.sqrt_sq_eq_abs _

/-- C1: for every hand observation, the pinch threshold equals
`max(0.7 × handScale, 0.05)` where pinch strength is the planar Euclidean
distance between thumb tip (landmark 4) and index tip (landmark 8) and the
hand scale is the distance between wrist (landmark 0) and index base
(landmark 9); the engine's decidable pinch test is exactly the strict
comparison `pinchStrength < threshold`, so a strength exactly equal to the
threshold is classified as not pinching. -/
theorem c1_pinch_classification (thumb index palm base : Pt) :
    (isPinchingB thumb index palm base = true ↔
      pinchStrength thumb index < threshold palm base) ∧
    threshold palm base = max (0.7 * handSpan palm base) 0.05 ∧
    (pinchStrength thumb index = threshold palm base →
      isPinchingB thumb index palm base = false) := by
  have hA := distSq_cast_nonneg thumb index
  have hB := distSq_cast_nonneg palm base
  have hstr : pinchStrength thumb index = Real.sqrt ((distSq thumb index : ℚ) : ℝ) :=
    distance_eq_sqrt_distSq _ _
  have hspan : handSpan palm base = Real.sqrt ((distSq palm base : ℚ) : ℝ) :=
    distance_eq_sqrt_distSq _ _
  have hthr : threshold palm base =
      max (Real.sqrt ((distSq palm base : ℚ) : ℝ) * 0.7) 0.05 := by
    unfold threshold
    rw [hspan]
  have hthrpos : (0 : ℝ) < max (Real.sqrt ((distSq palm base : ℚ) : ℝ) * 0.7) 0.05 :=
    lt_max_of_lt_right (by norm_num)
  have hsq1 : (Real.sqrt ((distSq palm base : ℚ) : ℝ) * 0.7) ^ 2 =
      0.49 * ((distSq palm base : ℚ) : ℝ) := by
    rw [mul_pow, Real.sq_sqrt hB]
    ring_nf
  have hsq : (max (Real.sqrt ((distSq palm base : ℚ) : ℝ) * 0.7) 0.05 : ℝ) ^ 2 =
      max (0.49 * ((distSq palm base : ℚ) : ℝ)) 0.0025 := by
    rcases le_total (Real.sqrt ((distSq palm base : ℚ) : ℝ) * (0.7 : ℝ)) 0.05 with h | h
    · rw [max_eq_right h, max_eq_right]
      · norm_num
      · nlinarith [Real.sqrt_nonneg ((distSq palm base : ℚ) : ℝ)]
    · rw [max_eq_left h, max_eq_left]
      · exact hsq1
      · nlinarith [Real.sqrt_nonneg ((distSq palm base : ℚ) : ℝ)]
  have hcast : (distSq thumb index < max (49 / 100 * distSq palm base) (1 / 400)) ↔
      ((distSq thumb index : ℚ) : ℝ) <
        max (0.49 * ((distSq palm base : ℚ) : ℝ)) 0.0025 := by
    rw [show (0.49 : ℝ) = ((49 / 100 : ℚ) : ℝ) by norm_num,
      show (0.0025 : ℝ) = ((1 / 400 : ℚ) : ℝ) by norm_num]
    constructor
    · intro h
      exact_mod_cast h
    · intro h
      exact_mod_cast h
  have hmain : isPinchingB thumb index palm base = true ↔
      pinchStrength thumb index < threshold palm base := by
    rw [isPinchingB, decide_eq_true_iff, hcast, hstr, hthr, ← hsq,
      Real.sqrt_lt' hthrpos]
  refine ⟨hmain, ?_, ?_⟩
  · unfold threshold
    rw [mul_comm]
  · intro heq
    rcases Bool.eq_false_or_eq_true (isPinchingB thumb index palm base) with h | h
    · exfalso
      have := hmain.mp h
      rw [heq] at this
      exact lt_irrefl _ this
    · exact h

/-- the wrist landmark of the C1 boundary scenario. -/
def wristPt : Pt := ⟨0, 0, 0⟩

/-- index base at distance 0.1 from the wrist (hand span 0.1). -/
def basePt : Pt := ⟨1 / 10, 0, 0⟩

/-- the thumb tip of the C1 scenario. -/
def thumbPt : Pt := ⟨0, 0, 0⟩

/-- index tip at thumb distance 0.06 (below the 0.07 threshold). -/
def indexNear : Pt := ⟨6 / 100, 0, 0⟩

/-- index tip at thumb distance 0.08 (above the 0.07 threshold). -/
def indexFar : Pt := ⟨8 / 100, 0, 0⟩

/-- index tip at thumb distance exactly 0.07 (exactly the threshold). -/
def indexEdge : Pt := ⟨7 / 100, 0, 0⟩

lemma threshold_scenario : threshold wristPt basePt = 7 / 100 := by
  unfold threshold handSpan
  rw [distance_same_y wristPt basePt rfl]
  have : |((wristPt.x - basePt.x : ℚ) : ℝ)| = 1 / 10 := by
    norm_num [wristPt, basePt]
  rw [this, max_eq_left (by norm_num)]
  norm_num

lemma pinchStrength_near : pinchStrength thumbPt indexNear = 6 / 100 := by
  unfold pinchStrength
  rw [distance_same_y thumbPt indexNear rfl]
  norm_num [thumbPt, indexNear]

lemma pinchStrength_far : pinchStrength thumbPt indexFar = 8 / 100 := by
  unfold pinchStrength
  rw [distance_same_y thumbPt indexFar rfl]
  norm_num [thumbPt, indexFar]

lemma pinchStrength_edge : pinchStrength thumbPt indexEdge = 7 / 100 := by
  unfold pinchStrength
  rw [distance_same_y thumbPt indexEdge rfl]
  norm_num [thumbPt, indexEdge]

/-- witness for C1: the spec's scenario, hand span 0.1 (threshold 0.07) —
thumb-index distance 0.06 is pinching, 0.08 is not, and exactly 0.07 is
classified not pinching. -/
theorem c1_witness :
    isPinchingB thumbPt indexNear wristPt basePt = true ∧
    isPinchingB thumbPt indexFar wristPt basePt = false ∧
    isPinchingB thumbPt indexEdge wristPt basePt = false := by
  refine ⟨?_, ?_, ?_⟩
  · exact (c1_pinch_classification thumbPt indexNear wristPt basePt).1.mpr
      (by rw [pinchStrength_near, threshold_scenario]; norm_num)
  · rcases Bool.eq_false_or_eq_true (isPinchingB thumbPt indexFar wristPt basePt) with h | h
    · exfalso
      have := (c1_pinch_classification thumbPt indexFar wristPt basePt).1.mp h
      rw [pinchStrength_far, threshold_scenario] at this
      norm_num at this
    · exact h
  · exact (c1_pinch_classification thumbPt indexEdge wristPt basePt).2.2
      (by rw [pinchStrength_edge, threshold_scenario])

/-! ## Hit-test enumeration order (C10) -/

lemma find?_first {α : Type} (p : α → Bool) :
    ∀ (pre : List α) (a : α) (post : List α),
      (∀ b ∈ pre, p b = false) → p a = true →
      List.find? p (pre ++ a :: post) = some a := by
  intro pre
  induction pre with
  | nil =>
    intro a post _ ha
    simp [List.find?, ha]
  | cons hd tl ih =>
    intro a post hpre ha
    have hhd : p hd = false := hpre hd (List.mem_cons_self hd tl)
    simp only [List.cons_append, List.find?, hhd]
    exact ih a post (fun b hb => hpre b (List.mem_cons_of_mem hd hb)) ha

lemma widget_foldl_skip (px py : ℚ) :
    ∀ (ws : List Widget) (acc : Option String),
      (∀ w ∈ ws, widgetContains px py w = false) →
      ws.foldl (fun acc w => if widgetContains px py w then some w.id else acc) acc = acc := by
  intro ws
  induction ws with
  | nil => intro acc _; rfl
  | cons hd tl ih =>
    intro acc h
    have hhd : widgetContains px py hd = false := h hd (List.mem_cons_self hd tl)
    rw [List.foldl_cons, if_neg (by rw [hhd]; exact Bool.false_ne_true)]
    exact ih acc (fun w hw => h w (List.mem_cons_of_mem hd hw))

/-- C10: for a point inside several overlapping interactables, the two
hit-tests use opposite tie-breaks: `hitTestButtons` (an `Array.find`)
returns the first matching button in enumeration order, while
`widgetUnderPoint` (a `forEach` that overwrites its result) returns the
last containing widget in enumeration order. -/
theorem c10_hit_test_order :
    (∀ (px py : ℚ) (pre : List ButtonEl) (b : ButtonEl) (post : List ButtonEl),
      (∀ b2 ∈ pre, buttonMatches px py b2 = false) → buttonMatches px py b = true →
      hitTestButtons px py (pre ++ b :: post) = some b) ∧
    (∀ (px py : ℚ) (pre : List Widget) (w : Widget) (post : List Widget),
      widgetContains px py w = true → (∀ w2 ∈ post, widgetContains px py w2 = false) →
      widgetUnderPoint px py (pre ++ w :: post) = some w.id) := by
  constructor
  · intro px py pre b post hpre hb
    unfold hitTestButtons
    exact find?_first (buttonMatches px py) pre b post hpre hb
  · intro px py pre w post hw hpost
    unfold widgetUnderPoint
    rw [List.foldl_append, List.foldl_cons, if_pos (by simp [hw])]
    exact widget_foldl_skip px py post (some w.id) hpost

/-- a visible control button at the origin, overlapping `btnB`. -/
def btnA : ButtonEl := ⟨"reset", ⟨0, 0, 40, 40⟩, "flex", "visible", "1", "auto"⟩

/-- a second visible control button overlapping `btnA`. -/
def btnB : ButtonEl := ⟨"shutter", ⟨10, 10, 40, 40⟩, "flex", "visible", "1", "auto"⟩

/-- a widget overlapping `widB`. -/
def widA : Widget := ⟨"wa", ⟨0, 0, 50, 50⟩, 0, 0⟩

/-- a second widget overlapping `widA`. -/
def widB : Widget := ⟨"wb", ⟨10, 10, 50, 50⟩, 0, 0⟩

/-- witness for C10: the point `(20, 20)` lies in both buttons and both
widgets; the button test returns the first button, the widget test the
last widget. -/
theorem c10_witness :
    hitTestButtons 20 20 [btnA, btnB] = some btnA ∧ buttonMatches 20 20 btnB = true ∧
    widgetUnderPoint 20 20 [widA, widB] = some "wb" ∧ widgetContains 20 20 widA = true := by
  refine ⟨?_, by with_unfolding_all decide, ?_, by with_unfolding_all decide⟩
  · exact c10_hit_test_order.1 20 20 [] btnA [btnB]
      (fun b2 hb => absurd hb (List.not_mem_nil b2)) (by with_unfolding_all decide)
  · exact c10_hit_test_order.2 20 20 [widA] widB []
      (by with_unfolding_all decide) (fun w2 hw => absurd hw (List.not_mem_nil w2))

/-! ## Snap alignment bounds and selection (C2) -/

lemma candStep_fst_le (bd : ℚ × ℚ) (c : Cand) : (candStep bd c).1 ≤ bd.1 := by
  unfold candStep
  split
  next h => exact h.1.le
  next => exact le_refl _

lemma candStep_cases (bd : ℚ × ℚ) (c : Cand) :
    candStep bd c = bd ∨ (c.dist ≤ ALIGN_THRESHOLD ∧ candStep bd c = (c.dist, c.delta)) := by
  unfold candStep
  split
  next h => exact Or.inr ⟨h.2, rfl⟩
  next => exact Or.inl rfl

lemma candStep_fst_le_dist (bd : ℚ × ℚ) (c : Cand) (h : c.dist ≤ ALIGN_THRESHOLD) :
    (candStep bd c).1 ≤ c.dist := by
  unfold candStep
  split
  next => exact le_refl _
  next hn =>
    rcases not_and_or.mp hn with h1 | h2
    · exact le_of_not_lt h1
    · exact absurd h h2

lemma foldl_candStep_fst_le (cl : List Cand) :
    ∀ bd : ℚ × ℚ, (cl.foldl candStep bd).1 ≤ bd.1 := by
  induction cl with
  | nil => intro bd; exact le_refl _
  | cons c cl ih =>
    intro bd
    exact le_trans (ih (candStep bd c)) (candStep_fst_le bd c)

lemma foldl_candStep_min (cl : List Cand) :
    ∀ bd : ℚ × ℚ, ∀ c ∈ cl, c.dist ≤ ALIGN_THRESHOLD →
      (cl.foldl candStep bd).1 ≤ c.dist := by
  induction cl with
  | nil =>
    intro bd c hc _
    exact absurd hc (List.not_mem_nil c)
  | cons a cl ih =>
    intro bd c hc hd
    rcases List.mem_cons.mp hc with rfl | hc2
    · exact le_trans (foldl_candStep_fst_le cl (candStep bd c)) (candStep_fst_le_dist bd c hd)
    · exact ih (candStep bd a) c hc2 hd

lemma foldl_candStep_cases (cl : List Cand) :
    ∀ bd : ℚ × ℚ, cl.foldl candStep bd = bd ∨
      ∃ c ∈ cl, c.dist ≤ ALIGN_THRESHOLD ∧ cl.foldl candStep bd = (c.dist, c.delta) := by
  induction cl with
  | nil => intro bd; exact Or.inl rfl
  | cons a cl ih =>
    intro bd
    rcases candStep_cases bd a with h | ⟨ha, h⟩
    · rcases ih (candStep bd a) with h2 | ⟨c, hc, hd, h2⟩
      · left
        rw [List.foldl_cons, h2, h]
      · right
        exact ⟨c, List.mem_cons_of_mem a hc, hd, by rw [List.foldl_cons, h2]⟩
    · rcases ih (candStep bd a) with h2 | ⟨c, hc, hd, h2⟩
      · right
        exact ⟨a, List.mem_cons_self a cl, ha, by rw [List.foldl_cons, h2, h]⟩
      · right
        exact ⟨c, List.mem_cons_of_mem a hc, hd, by rw [List.foldl_cons, h2]⟩

lemma bestAlign_fst_le (cls : List (List Cand)) :
    ∀ bd : ℚ × ℚ, (cls.foldl (fun bd cl => cl.foldl candStep bd) bd).1 ≤ bd.1 := by
  induction cls with
  | nil => intro bd; exact le_refl _
  | cons cl cls ih =>
    intro bd
    exact le_trans (ih (cl.foldl candStep bd)) (foldl_candStep_fst_le cl bd)

lemma bestAlign_min (cls : List (List Cand)) :
    ∀ bd : ℚ × ℚ, ∀ cl ∈ cls, ∀ c ∈ cl, c.dist ≤ ALIGN_THRESHOLD →
      (cls.foldl (fun bd cl => cl.foldl candStep bd) bd).1 ≤ c.dist := by
  induction cls with
  | nil =>
    intro bd cl hcl _ _ _
    exact absurd hcl (List.not_mem_nil cl)
  | cons a cls ih =>
    intro bd cl hcl c hc hd
    rcases List.mem_cons.mp hcl with rfl | hcl2
    · exact le_trans (bestAlign_fst_le cls (cl.foldl candStep bd)) (foldl_candStep_min cl bd c hc hd)
    · exact ih (a.foldl candStep bd) cl hcl2 c hc hd

lemma bestAlign_cases (cls : List (List Cand)) :
    ∀ bd : ℚ × ℚ, cls.foldl (fun bd cl => cl.foldl candStep bd) bd = bd ∨
      ∃ cl ∈ cls, ∃ c ∈ cl, c.dist ≤ ALIGN_THRESHOLD ∧
        cls.foldl (fun bd cl => cl.foldl candStep bd) bd = (c.dist, c.delta) := by
  induction cls with
  | nil => intro bd; exact Or.inl rfl
  | cons a cls ih =>
    intro bd
    rcases foldl_candStep_cases a bd with h | ⟨c, hc, hd, h⟩
    · rcases ih (a.foldl candStep bd) with h2 | ⟨cl, hcl, c, hc, hd, h2⟩
      · left
        rw [List.foldl_cons, h2, h]
      · right
        exact ⟨cl, List.mem_cons_of_mem a hcl, c, hc, hd, by rw [List.foldl_cons, h2]⟩
    · rcases ih (a.foldl candStep bd) with h2 | ⟨cl, hcl, c2, hc2, hd2, h2⟩
      · right
        exact ⟨a, List.mem_cons_self a cls, c, hc, hd, by rw [List.foldl_cons, h2, h]⟩
      · right
        exact ⟨cl, List.mem_cons_of_mem a hcl, c2, hc2, hd2, by rw [List.foldl_cons, h2]⟩

lemma candsX_dist_abs (self r : DomRect) : ∀ c ∈ candsX self r, c.dist = |c.delta| := by
  intro c hc
  rcases hc with _ | ⟨_, _ | ⟨_, _ | ⟨_, h⟩⟩⟩
  · exact abs_sub_comm _ _
  · exact abs_sub_comm _ _
  · exact abs_sub_comm _ _
  · exact absurd ‹c ∈ ([] : List Cand)› (List.not_mem_nil c)

lemma candsY_dist_abs (self r : DomRect) : ∀ c ∈ candsY self r, c.dist = |c.delta| := by
  intro c hc
  rcases hc with _ | ⟨_, _ | ⟨_, _ | ⟨_, h⟩⟩⟩
  · exact abs_sub_comm _ _
  · exact abs_sub_comm _ _
  · exact abs_sub_comm _ _
  · exact absurd ‹c ∈ ([] : List Cand)› (List.not_mem_nil c)

lemma align_abs_le (cands : DomRect → DomRect → List Cand)
    (habs : ∀ self r : DomRect, ∀ c ∈ cands self r, c.dist = |c.delta|)
    (self : DomRect) (others : List DomRect) :
    |(bestAlign (others.map (cands self))).2| ≤ ALIGN_THRESHOLD ∧
    ((bestAlign (others.map (cands self))).2 = 0 ∨
      ∃ r ∈ others, ∃ c ∈ cands self r, c.dist ≤ ALIGN_THRESHOLD ∧
        c.delta = (bestAlign (others.map (cands self))).2 ∧
        c.dist = (bestAlign (others.map (cands self))).1) := by
  unfold bestAlign
  rcases bestAlign_cases (others.map (cands self)) (ALIGN_THRESHOLD + 1, 0) with h | h
  · rw [h]
    constructor
    · simp [ALIGN_THRESHOLD]
    · exact Or.inl rfl
  · obtain ⟨cl, hcl, c, hc, hd, h⟩ := h
    obtain ⟨r, hr, rfl⟩ := List.mem_map.mp hcl
    rw [h]
    constructor
    · calc |c.delta| = c.dist := (habs self r c hc).symm
        _ ≤ ALIGN_THRESHOLD := hd
    · exact Or.inr ⟨r, hr, c, hc, hd, rfl, rfl⟩

/-- C2: on each axis the snap alignment selects, among all other widgets'
leading-edge / center / trailing-edge candidates, one with minimal absolute
misalignment among those within the 140px tolerance (shifting by 0 when
none qualifies), so the applied shift never exceeds the tolerance; the
resulting offset is then rounded to the grid, so each axis of the final
offset is an exact integer multiple of the 16px snap unit. -/
theorem c2_snap_alignment (self : DomRect) (others : List DomRect) (off : ℚ × ℚ) :
    (|(alignX self others).2| ≤ ALIGN_THRESHOLD ∧
     |(alignY self others).2| ≤ ALIGN_THRESHOLD) ∧
    ((∃ kx : ℤ, (snapOffset self others off).1 = (kx : ℚ) * SNAP_SIZE) ∧
     (∃ ky : ℤ, (snapOffset self others off).2 = (ky : ℚ) * SNAP_SIZE)) ∧
    (∀ r ∈ others, ∀ c ∈ candsX self r, c.dist ≤ ALIGN_THRESHOLD →
      (alignX self others).1 ≤ c.dist) ∧
    (∀ r ∈ others, ∀ c ∈ candsY self r, c.dist ≤ ALIGN_THRESHOLD →
      (alignY self others).1 ≤ c.dist) ∧
    ((alignX self others).2 = 0 ∨ ∃ r ∈ others, ∃ c ∈ candsX self r,
      c.dist ≤ ALIGN_THRESHOLD ∧ c.delta = (alignX self others).2 ∧
      c.dist = (alignX self others).1) ∧
    ((alignY self others).2 = 0 ∨ ∃ r ∈ others, ∃ c ∈ candsY self r,
      c.dist ≤ ALIGN_THRESHOLD ∧ c.delta = (alignY self others).2 ∧
      c.dist = (alignY self others).1) := by
  have hx := align_abs_le candsX candsX_dist_abs self others
  have hy := align_abs_le candsY candsY_dist_abs self others
  refine ⟨⟨hx.1, hy.1⟩, ⟨⟨jsRound ((off.1 + (alignX self others).2) / SNAP_SIZE), rfl⟩,
    ⟨jsRound ((off.2 + (alignY self others).2) / SNAP_SIZE), rfl⟩⟩, ?_, ?_, hx.2, hy.2⟩
  · intro r hr c hc hd
    exact bestAlign_min (others.map (candsX self)) (ALIGN_THRESHOLD + 1, 0)
      (candsX self r) (List.mem_map_of_mem (candsX self) hr) c hc hd
  · intro r hr c hc hd
    exact bestAlign_min (others.map (candsY self)) (ALIGN_THRESHOLD + 1, 0)
      (candsY self r) (List.mem_map_of_mem (candsY self) hr) c hc hd

/-- the released widget's rendered rectangle in the C2 witness scenario. -/
def cSelf : DomRect := ⟨0, 0, 100, 100⟩

/-- the sibling widget rectangle: 30px to the right, 8px down. -/
def cOther : DomRect := ⟨30, 8, 100, 100⟩

/-- witness for C2: aligning against the sibling shifts by (30, 8) — within
tolerance — and quantizing offset (50, 0) + (30, 8) = (80, 8) to the 16px
grid gives (80, 16), each an exact multiple of 16. -/
theorem c2_witness :
    snapOffset cSelf [cOther] (50, 0) = (80, 16) ∧
    |(alignX cSelf [cOther]).2| ≤ ALIGN_THRESHOLD ∧
    (∃ kx : ℤ, (snapOffset cSelf [cOther] (50, 0)).1 = (kx : ℚ) * SNAP_SIZE) := by
  refine ⟨by with_unfolding_all decide, (c2_snap_alignment cSelf [cOther] (50, 0)).1.1,
    (c2_snap_alignment cSelf [cOther] (50, 0)).2.1.1⟩

/-! ## The toggle-edit command in try-on mode (C3) -/

/-- a try-on-mode state with edit mode off (the state `setMode('tryon')`
leaves behind). -/
def tryonState : EngineState :=
  ⟨Option.none, false, PinchMode.pnone, false, 0, Mode.tryon, Option.none, 0,
   Option.none, 0, 0, false, 0, false, false, [], []⟩

/-- counterexample to C3 as stated: in try-on mode the `toggle-edit`
command is not ignored — `runAction` dispatches to `setEditMode(!editMode)`
with no mode guard, so the edit-mode flag flips from `false` to `true`. -/
theorem c3_counterexample :
    tryonState.mode = Mode.tryon ∧ tryonState.editMode = false ∧
    (runAction "toggle-edit" tryonState).editMode = true := by
  refine ⟨rfl, rfl, ?_⟩
  with_unfolding_all decide

/-- C3 amended: the `toggle-edit` command is dispatched unconditionally —
in every state, try-on mode included, it flips the edit-mode flag, clears
the drag binding when the flag turns off, and leaves the mode and the rest
of the engine state unchanged. -/
theorem c3_toggle_edit_amended (s : EngineState) :
    (runAction "toggle-edit" s).editMode = !s.editMode ∧
    (runAction "toggle-edit" s).draggingId =
      (if s.editMode then Option.none else s.draggingId) ∧
    (runAction "toggle-edit" s).mode = s.mode ∧
    (runAction "toggle-edit" s).pinchActive = s.pinchActive ∧
    (runAction "toggle-edit" s).widgets = s.widgets ∧
    (runAction "toggle-edit" s).photoReady = s.photoReady ∧
    (runAction "toggle-edit" s).isCountingDown = s.isCountingDown := by
  have h : runAction "toggle-edit" s = setEditMode (!s.editMode) s := by
    with_unfolding_all rfl
  rw [h]
  cases hs : s.editMode <;> simp [setEditMode, hs]

/-- witness for C3's amended claim, at the concrete try-on state of the
counterexample. -/
theorem c3_witness :
    (runAction "toggle-edit" tryonState).editMode = !tryonState.editMode ∧
    (runAction "toggle-edit" tryonState).mode = tryonState.mode :=
  ⟨(c3_toggle_edit_amended tryonState).1, (c3_toggle_edit_amended tryonState).2.2.1⟩

/-! ## Shutter and countdown (C8) -/

/-- C8: triggering the shutter is a no-op unless the mode is try-on and no
countdown is in progress (in particular a trigger during a countdown
changes nothing); when it does fire, the counter starts at 3 and exactly
three interval ticks (one per second, displaying 3, 2, 1) elapse before
the photo is captured and the state becomes photo-ready. -/
theorem c8_shutter_countdown (s : EngineState) :
    (s.isCountingDown = true → triggerShutter s = s) ∧
    (s.mode ≠ Mode.tryon → triggerShutter s = s) ∧
    (s.mode = Mode.tryon → s.isCountingDown = false →
      (triggerShutter s).isCountingDown = true ∧
      (triggerShutter s).counter = 3 ∧
      (triggerShutter s).photoReady = false ∧
      (tickCountdown (triggerShutter s)).isCountingDown = true ∧
      (tickCountdown (triggerShutter s)).photoReady = false ∧
      (tickCountdown (triggerShutter s)).counter = 2 ∧
      (tickCountdown (tickCountdown (triggerShutter s))).isCountingDown = true ∧
      (tickCountdown (tickCountdown (triggerShutter s))).photoReady = false ∧
      (tickCountdown (tickCountdown (triggerShutter s))).counter = 1 ∧
      (tickCountdown (tickCountdown (tickCountdown (triggerShutter s)))).isCountingDown = false ∧
      (tickCountdown (tickCountdown (tickCountdown (triggerShutter s)))).photoReady = true ∧
      (tickCountdown (tickCountdown (tickCountdown (triggerShutter s)))).captureDataUrl = true) := by
  refine ⟨?_, ?_, ?_⟩
  · intro h
    simp [triggerShutter, h]
  · intro h
    simp [triggerShutter, h]
  · intro hm hcd
    have ht : triggerShutter s =
        { hidePhotoPreview s with counter := 3, isCountingDown := true } := by
      simp [triggerShutter, hm, hcd]
    have h1 : tickCountdown (triggerShutter s) =
        { hidePhotoPreview s with counter := 2, isCountingDown := true } := by
      rw [ht]
      norm_num [tickCountdown]
    have h2 : tickCountdown (tickCountdown (triggerShutter s)) =
        { hidePhotoPreview s with counter := 1, isCountingDown := true } := by
      rw [h1]
      norm_num [tickCountdown]
    have h3 : tickCountdown (tickCountdown (tickCountdown (triggerShutter s))) =
        capturePhoto { hidePhotoPreview s with counter := 0, isCountingDown := false } := by
      rw [h2]
      norm_num [tickCountdown]
    rw [h3, h2, h1, ht]
    simp [hidePhotoPreview, capturePhoto]

/-- witness for C8: from the concrete try-on idle state, the shutter starts
a countdown, a second trigger during the countdown is a no-op, and three
ticks produce a ready photo. -/
theorem c8_witness :
    (triggerShutter tryonState).isCountingDown = true ∧
    triggerShutter (triggerShutter tryonState) = triggerShutter tryonState ∧
    (tickCountdown (tickCountdown (tickCountdown (triggerShutter tryonState)))).photoReady = true := by
  have h3 := (c8_shutter_countdown tryonState).2.2 rfl rfl
  exact ⟨h3.1, (c8_shutter_countdown (triggerShutter tryonState)).1 h3.1, h3.2.2.2.2.2.2.2.2.2.2.1⟩

/-! ## Preservation lemmas for the frame pipeline -/

lemma setWidgetPosition_shape (id : String) (x y : ℚ) (s : EngineState) :
    ∃ ws, setWidgetPosition id x y s = { s with widgets := ws } := by
  unfold setWidgetPosition
  cases h : findWidget id s.widgets with
  | none => exact ⟨s.widgets, rfl⟩
  | some w =>
    by_cases he : s.editMode = true
    · exact ⟨_, by rw [if_pos he]⟩
    · exact ⟨s.widgets, by rw [if_neg he]⟩

lemma dragMove_cases (pmx pmy : ℚ) (s : EngineState) :
    dragMove pmx pmy s = s ∨ ∃ d, dragMove pmx pmy s = setWidgetPosition d pmx pmy s := by
  unfold dragMove
  cases s.draggingId with
  | none => exact Or.inl rfl
  | some d =>
    by_cases hc : s.pinchMode = PinchMode.drag ∧ s.editMode = true ∧ s.mode = Mode.mirror
    · refine Or.inr ⟨d, ?_⟩
      show (if s.pinchMode = PinchMode.drag ∧ s.editMode = true ∧ s.mode = Mode.mirror
        then setWidgetPosition d pmx pmy s else s) = setWidgetPosition d pmx pmy s
      rw [if_pos hc]
    · refine Or.inl ?_
      show (if s.pinchMode = PinchMode.drag ∧ s.editMode = true ∧ s.mode = Mode.mirror
        then setWidgetPosition d pmx pmy s else s) = s
      rw [if_neg hc]

lemma dragMove_shape (pmx pmy : ℚ) (s : EngineState) :
    ∃ ws, dragMove pmx pmy s = { s with widgets := ws } := by
  rcases dragMove_cases pmx pmy s with h | ⟨d, h⟩
  · exact ⟨s.widgets, h.trans rfl⟩
  · obtain ⟨ws, hw⟩ := setWidgetPosition_shape d pmx pmy s
    exact ⟨ws, h.trans hw⟩

lemma snapWidget_shape (id : String) (s : EngineState) :
    ∃ ws, snapWidget id s = { s with widgets := ws } := by
  unfold snapWidget
  cases h : findWidget id s.widgets with
  | none => exact ⟨s.widgets, rfl⟩
  | some w => exact ⟨_, rfl⟩

lemma resetPanels_shape (s : EngineState) :
    ∃ ws, resetPanels s = { s with widgets := ws } :=
  ⟨_, rfl⟩

lemma setEditMode_shape (flag : Bool) (s : EngineState) :
    ∃ e d, setEditMode flag s = { s with editMode := e, draggingId := d } := by
  unfold setEditMode
  by_cases hf : flag = true
  · exact ⟨flag, s.draggingId, by rw [if_pos hf]⟩
  · exact ⟨flag, Option.none, by rw [if_neg hf]⟩

lemma triggerShutter_shape (s : EngineState) :
    ∃ pr cd icd cnt, triggerShutter s =
      { s with photoReady := pr, captureDataUrl := cd, isCountingDown := icd,
               counter := cnt } := by
  unfold triggerShutter hidePhotoPreview
  split
  · exact ⟨s.photoReady, s.captureDataUrl, s.isCountingDown, s.counter, rfl⟩
  · exact ⟨false, false, true, 3, rfl⟩

/-- the fields of the engine state that `runAction` can never touch,
whatever the action string: the pinch session, the cooldown timestamps,
the mode, the swipe trackers and the ghost trace. -/
def CoreShape (s t : EngineState) : Prop :=
  t.pinchActive = s.pinchActive ∧ t.pinchMode = s.pinchMode ∧
  t.lastButtonPress = s.lastButtonPress ∧ t.mode = s.mode ∧
  t.lastSwipeX = s.lastSwipeX ∧ t.lastSwipeTime = s.lastSwipeTime ∧
  t.swipeStartX = s.swipeStartX ∧ t.swipeStartTime = s.swipeStartTime ∧
  t.lastGestureTime = s.lastGestureTime ∧ t.fired = s.fired

lemma CoreShape_refl (s : EngineState) : CoreShape s s :=
  ⟨rfl, rfl, rfl, rfl, rfl, rfl, rfl, rfl, rfl, rfl⟩

lemma CoreShape_trans {a b c : EngineState} (h1 : CoreShape a b) (h2 : CoreShape b c) :
    CoreShape a c :=
  ⟨h2.1.trans h1.1, h2.2.1.trans h1.2.1, h2.2.2.1.trans h1.2.2.1,
   h2.2.2.2.1.trans h1.2.2.2.1, h2.2.2.2.2.1.trans h1.2.2.2.2.1,
   h2.2.2.2.2.2.1.trans h1.2.2.2.2.2.1, h2.2.2.2.2.2.2.1.trans h1.2.2.2.2.2.2.1,
   h2.2.2.2.2.2.2.2.1.trans h1.2.2.2.2.2.2.2.1,
   h2.2.2.2.2.2.2.2.2.1.trans h1.2.2.2.2.2.2.2.2.1,
   h2.2.2.2.2.2.2.2.2.2.trans h1.2.2.2.2.2.2.2.2.2⟩

lemma resetPanels_core (s : EngineState) : CoreShape s (resetPanels s) :=
  ⟨rfl, rfl, rfl, rfl, rfl, rfl, rfl, rfl, rfl, rfl⟩

lemma setEditMode_core (flag : Bool) (s : EngineState) : CoreShape s (setEditMode flag s) := by
  unfold setEditMode
  split
  · exact ⟨rfl, rfl, rfl, rfl, rfl, rfl, rfl, rfl, rfl, rfl⟩
  · exact ⟨rfl, rfl, rfl, rfl, rfl, rfl, rfl, rfl, rfl, rfl⟩

lemma triggerShutter_core (s : EngineState) : CoreShape s (triggerShutter s) := by
  unfold triggerShutter hidePhotoPreview
  split
  · exact CoreShape_refl s
  · exact ⟨rfl, rfl, rfl, rfl, rfl, rfl, rfl, rfl, rfl, rfl⟩

lemma runAction_core (a : String) (s : EngineState) : CoreShape s (runAction a s) := by
  have step1 : ∀ t : EngineState,
      CoreShape t (if (a == "reset") = true then resetPanels t else t) := by
    intro t
    split
    · exact resetPanels_core t
    · exact CoreShape_refl t
  have step2 : ∀ t : EngineState,
      CoreShape t (if (a == "toggle-edit") = true then setEditMode (!t.editMode) t else t) := by
    intro t
    split
    · exact setEditMode_core _ t
    · exact CoreShape_refl t
  have step3 : ∀ t : EngineState,
      CoreShape t (if (a == "shutter") = true then triggerShutter t else t) := by
    intro t
    split
    · exact triggerShutter_core t
    · exact CoreShape_refl t
  unfold runAction
  exact CoreShape_trans (CoreShape_trans (step1 s) (step2 _)) (step3 _)

lemma pinchCore_active (env : Env) (t i p b : Pt) (s : EngineState)
    (hA : s.pinchActive = true) :
    ∃ ws, (pinchCore env t i p b s).2 = { s with widgets := ws } := by
  obtain ⟨ws, hw⟩ := dragMove_shape (mirrorX env s.mode i) (mirrorY env i) s
  cases hp : isPinchingB t i p b
  · exact ⟨s.widgets, by simp only [pinchCore, hp]; rfl⟩
  · refine ⟨ws, ?_⟩
    simp only [pinchCore, hp, hA]
    rw [hA] at hw
    simpa using hw

lemma processPinch_eq (env : Env) (l : List Pt) (s : EngineState) (pr : Bool)
    (s1 : EngineState) (h : processPinch env l s = some (pr, s1)) :
    ∃ t i p b, l.get? 4 = some t ∧ l.get? 8 = some i ∧ l.get? 0 = some p ∧
      l.get? 9 = some b ∧ pinchCore env t i p b s = (pr, s1) := by
  unfold processPinch at h
  rcases h4 : l.get? 4 with _ | t <;> rcases h8 : l.get? 8 with _ | i <;>
    rcases h0 : l.get? 0 with _ | p <;> rcases h9 : l.get? 9 with _ | b <;>
    rw [h4, h8, h0, h9] at h <;>
    first
      | exact Option.noConfusion h
      | exact ⟨t, i, p, b, rfl, rfl, rfl, rfl, Option.some.inj h⟩

lemma processPinch_active (env : Env) (l : List Pt) (s : EngineState) (pr : Bool)
    (s1 : EngineState) (h : processPinch env l s = some (pr, s1))
    (hA : s.pinchActive = true) : ∃ ws, s1 = { s with widgets := ws } := by
  obtain ⟨t, i, p, b, _, _, _, _, hpc⟩ := processPinch_eq env l s pr s1 h
  obtain ⟨ws, hw⟩ := pinchCore_active env t i p b s hA
  rw [hpc] at hw
  exact ⟨ws, hw⟩

lemma pinchFold_active (env : Env) :
    ∀ (hands : List (List Pt)) (any : Bool) (s : EngineState) (any2 : Bool)
      (s2 : EngineState), s.pinchActive = true →
      pinchFold env hands any s = some (any2, s2) →
      ∃ ws, s2 = { s with widgets := ws } := by
  intro hands
  induction hands with
  | nil =>
    intro any s any2 s2 hA h
    unfold pinchFold at h
    obtain ⟨h1, h2⟩ := Prod.mk.injEq .. ▸ Option.some.inj h
    exact ⟨s.widgets, by rw [← h2]⟩
  | cons l rest ih =>
    intro any s any2 s2 hA h
    unfold pinchFold at h
    rcases hp : processPinch env l s with _ | prs1
    · rw [hp] at h
      exact Option.noConfusion h
    · obtain ⟨pr, s1⟩ := prs1
      rw [hp] at h
      obtain ⟨ws1, hw1⟩ := processPinch_active env l s pr s1 hp hA
      have hA1 : s1.pinchActive = true := by rw [hw1]; exact hA
      obtain ⟨ws2, hw2⟩ := ih (any || pr) s1 any2 s2 hA1 h
      exact ⟨ws2, by rw [hw2, hw1]⟩

lemma setMode_keep (m : Mode) (s : EngineState) :
    (setMode m s).pinchActive = s.pinchActive ∧ (setMode m s).pinchMode = s.pinchMode ∧
    (setMode m s).lastButtonPress = s.lastButtonPress ∧ (setMode m s).fired = s.fired ∧
    (setMode m s).widgets = s.widgets ∧
    (setMode m s).lastGestureTime = s.lastGestureTime := by
  unfold setMode setEditMode hidePhotoPreview
  split
  · exact ⟨rfl, rfl, rfl, rfl, rfl, rfl⟩
  · cases m
    · exact ⟨rfl, rfl, rfl, rfl, rfl, rfl⟩
    · simp

lemma swipeStep_keep (now : ℤ) (l : List Pt) (s s1 : EngineState)
    (h : swipeStep now l s = some s1) :
    s1.pinchActive = s.pinchActive ∧ s1.pinchMode = s.pinchMode ∧
    s1.lastButtonPress = s.lastButtonPress ∧ s1.fired = s.fired ∧
    s1.widgets = s.widgets ∧ s1.lastGestureTime = s.lastGestureTime := by
  unfold swipeStep at h
  rcases h8 : l.get? 8 with _ | i8
  · rw [h8] at h
    exact Option.noConfusion h
  · rw [h8] at h
    rcases hsx : s.swipeStartX with _ | sx <;> rw [hsx] at h
    · have h2 := Option.some.inj h
      rw [← h2]
      exact ⟨rfl, rfl, rfl, rfl, rfl, rfl⟩
    · have h2 := Option.some.inj h
      obtain ⟨k1, k2, k3, k4, k5, k6⟩ := setMode_keep Mode.tryon s
      obtain ⟨m1, m2, m3, m4, m5, m6⟩ := setMode_keep Mode.mirror s
      rw [← h2]
      refine ⟨?_, ?_, ?_, ?_, ?_, ?_⟩ <;>
        split_ifs <;> simp [k1, k2, k3, k4, k5, k6, m1, m2, m3, m4, m5, m6]

lemma swipeStep_active (now : ℤ) (l : List Pt) (s s1 : EngineState)
    (hA : s.pinchActive = true) (h : swipeStep now l s = some s1) :
    s1.draggingId = s.draggingId ∧ s1.mode = s.mode ∧ s1.editMode = s.editMode ∧
    s1.photoReady = s.photoReady ∧ s1.isCountingDown = s.isCountingDown ∧
    s1.counter = s.counter ∧ s1.captureDataUrl = s.captureDataUrl ∧
    s1.lastSwipeTime = s.lastSwipeTime := by
  unfold swipeStep at h
  rcases h8 : l.get? 8 with _ | i8
  · rw [h8] at h
    exact Option.noConfusion h
  · rw [h8] at h
    rcases hsx : s.swipeStartX with _ | sx <;> rw [hsx] at h
    · have h2 := Option.some.inj h
      rw [← h2]
      exact ⟨rfl, rfl, rfl, rfl, rfl, rfl, rfl, rfl⟩
    · have h2 := Option.some.inj h
      rw [← h2]
      refine ⟨?_, ?_, ?_, ?_, ?_, ?_, ?_, ?_⟩ <;>
        split_ifs <;> simp_all

lemma detectSwipes_keep (now : ℤ) :
    ∀ (hands : List (List Pt)) (s s2 : EngineState),
      detectSwipes now hands s = some s2 →
      s2.pinchActive = s.pinchActive ∧ s2.pinchMode = s.pinchMode ∧
      s2.lastButtonPress = s.lastButtonPress ∧ s2.fired = s.fired ∧
      s2.widgets = s.widgets ∧ s2.lastGestureTime = s.lastGestureTime := by
  intro hands
  induction hands with
  | nil =>
    intro s s2 h
    have h2 := Option.some.inj h
    rw [← h2]
    exact ⟨rfl, rfl, rfl, rfl, rfl, rfl⟩
  | cons l rest ih =>
    intro s s2 h
    unfold detectSwipes at h
    rcases hs : swipeStep now l s with _ | s1
    · rw [hs] at h
      exact Option.noConfusion h
    · rw [hs] at h
      obtain ⟨a1, a2, a3, a4, a5, a6⟩ := swipeStep_keep now l s s1 hs
      obtain ⟨b1, b2, b3, b4, b5, b6⟩ := ih s1 s2 h
      exact ⟨b1.trans a1, b2.trans a2, b3.trans a3, b4.trans a4, b5.trans a5, b6.trans a6⟩

lemma detectSwipes_active (now : ℤ) :
    ∀ (hands : List (List Pt)) (s s2 : EngineState), s.pinchActive = true →
      detectSwipes now hands s = some s2 →
      s2.draggingId = s.draggingId ∧ s2.mode = s.mode ∧ s2.editMode = s.editMode ∧
      s2.photoReady = s.photoReady ∧ s2.isCountingDown = s.isCountingDown := by
  intro hands
  induction hands with
  | nil =>
    intro s s2 _ h
    have h2 := Option.some.inj h
    rw [← h2]
    exact ⟨rfl, rfl, rfl, rfl, rfl⟩
  | cons l rest ih =>
    intro s s2 hA h
    unfold detectSwipes at h
    rcases hs : swipeStep now l s with _ | s1
    · rw [hs] at h
      exact Option.noConfusion h
    · rw [hs] at h
      have hA1 : s1.pinchActive = true := by
        rw [(swipeStep_keep now l s s1 hs).1]
        exact hA
      obtain ⟨a1, a2, a3, a4, a5, _, _, _⟩ := swipeStep_active now l s s1 hA hs
      obtain ⟨b1, b2, b3, b4, b5⟩ := ih s1 s2 hA1 h
      exact ⟨b1.trans a1, b2.trans a2, b3.trans a3, b4.trans a4, b5.trans a5⟩

lemma triggerShutter_keep (s : EngineState) :
    (triggerShutter s).draggingId = s.draggingId ∧
    (triggerShutter s).pinchActive = s.pinchActive ∧
    (triggerShutter s).pinchMode = s.pinchMode ∧
    (triggerShutter s).editMode = s.editMode ∧
    (triggerShutter s).lastButtonPress = s.lastButtonPress ∧
    (triggerShutter s).mode = s.mode ∧
    (triggerShutter s).widgets = s.widgets ∧
    (triggerShutter s).fired = s.fired := by
  obtain ⟨pr, cd, icd, cnt, hsh⟩ := triggerShutter_shape s
  rw [hsh]
  exact ⟨rfl, rfl, rfl, rfl, rfl, rfl, rfl, rfl⟩

lemma thumbLoop_keep (now : ℤ) :
    ∀ (hs : List (List Pt)) (s s2 : EngineState), thumbLoop now s hs = some s2 →
      s2.draggingId = s.draggingId ∧ s2.pinchActive = s.pinchActive ∧
      s2.pinchMode = s.pinchMode ∧ s2.editMode = s.editMode ∧
      s2.lastButtonPress = s.lastButtonPress ∧ s2.mode = s.mode ∧
      s2.widgets = s.widgets ∧ s2.fired = s.fired := by
  intro hs
  induction hs with
  | nil =>
    intro s s2 h
    have h2 := Option.some.inj h
    rw [← h2]
    exact ⟨rfl, rfl, rfl, rfl, rfl, rfl, rfl, rfl⟩
  | cons l rest ih =>
    intro s s2 h
    unfold thumbLoop at h
    rcases hff : fingersFoldedM l with _ | ff
    · rw [hff] at h
      exact Option.noConfusion h
    · rw [hff] at h
      cases ff
      · simp only [Bool.not_false, if_pos] at h
        exact ih s s2 h
      · simp only [Bool.not_true, Bool.false_eq_true, if_false] at h
        split at h
        · split_ifs at h
          · have he := Option.some.inj h
            rw [← he]
            exact ⟨rfl, rfl, rfl, rfl, rfl, rfl, rfl, rfl⟩
          · have he := Option.some.inj h
            rw [← he]
            unfold retakePhoto hidePhotoPreview
            exact ⟨(triggerShutter_keep _).1, (triggerShutter_keep _).2.1,
              (triggerShutter_keep _).2.2.1, (triggerShutter_keep _).2.2.2.1,
              (triggerShutter_keep _).2.2.2.2.1, (triggerShutter_keep _).2.2.2.2.2.1,
              (triggerShutter_keep _).2.2.2.2.2.2.1, (triggerShutter_keep _).2.2.2.2.2.2.2⟩
          · exact ih s s2 h
        · exact Option.noConfusion h

lemma detectThumbGestures_keep (now : ℤ) (hands : List (List Pt)) (s s2 : EngineState)
    (h : detectThumbGestures now hands s = some s2) :
    s2.draggingId = s.draggingId ∧ s2.pinchActive = s.pinchActive ∧
    s2.pinchMode = s.pinchMode ∧ s2.editMode = s.editMode ∧
    s2.lastButtonPress = s.lastButtonPress ∧ s2.mode = s.mode ∧
    s2.widgets = s.widgets ∧ s2.fired = s.fired := by
  unfold detectThumbGestures at h
  split_ifs at h
  · have h2 := Option.some.inj h
    rw [← h2]
    exact ⟨rfl, rfl, rfl, rfl, rfl, rfl, rfl, rfl⟩
  · exact thumbLoop_keep now hands s s2 h

lemma releaseStage_cases (any : Bool) (s1 : EngineState) :
    releaseStage any s1 = s1 ∨ (releaseStage any s1).pinchActive = false := by
  unfold releaseStage
  split
  · exact Or.inr rfl
  · exact Or.inl rfl

lemma releaseSnap_cases (s1 : EngineState) :
    releaseSnap s1 = s1 ∨ ∃ d, releaseSnap s1 = snapWidget d s1 := by
  unfold releaseSnap
  cases s1.draggingId with
  | none => exact Or.inl rfl
  | some d =>
    by_cases he : s1.editMode = true
    · refine Or.inr ⟨d, ?_⟩
      show (if s1.editMode = true then snapWidget d s1 else s1) = snapWidget d s1
      rw [if_pos he]
    · refine Or.inl ?_
      show (if s1.editMode = true then snapWidget d s1 else s1) = s1
      rw [if_neg he]

lemma releaseSnap_shape (s1 : EngineState) :
    ∃ ws, releaseSnap s1 = { s1 with widgets := ws } := by
  rcases releaseSnap_cases s1 with h | ⟨d, h⟩
  · exact ⟨s1.widgets, h.trans rfl⟩
  · obtain ⟨ws, hw⟩ := snapWidget_shape d s1
    exact ⟨ws, h.trans hw⟩

lemma releaseStage_shape (any : Bool) (s1 : EngineState) :
    ∃ pa dg pm ws, releaseStage any s1 =
      { s1 with pinchActive := pa, draggingId := dg, pinchMode := pm, widgets := ws } := by
  unfold releaseStage
  obtain ⟨ws, hw⟩ := releaseSnap_shape s1
  split
  · exact ⟨false, Option.none, PinchMode.pnone, ws, by rw [hw]⟩
  · exact ⟨s1.pinchActive, s1.draggingId, s1.pinchMode, s1.widgets, rfl⟩

/-- C5: a drag session, once active and bound, cannot rebind.  Per hand: a
`processPinch` call made while the session is already active leaves the
drag binding unchanged (so a second pinching hand in the same frame cannot
override it).  Per frame: a whole `onResults` call that starts with the
session active and ends with it still active (not released) leaves the
drag binding unchanged. -/
theorem c5_drag_binding_stable :
    (∀ (env : Env) (l : List Pt) (s : EngineState) (pr : Bool) (s1 : EngineState),
      processPinch env l s = some (pr, s1) → s.pinchActive = true →
      s1.draggingId = s.draggingId ∧ s1.pinchActive = true) ∧
    (∀ (env : Env) (hands : List (List Pt)) (s s2 : EngineState),
      onResults env hands s = some s2 → s.pinchActive = true →
      s2.pinchActive = true → s2.draggingId = s.draggingId) := by
  constructor
  · intro env l s pr s1 h hA
    obtain ⟨ws, hw⟩ := processPinch_active env l s pr s1 h hA
    rw [hw]
    exact ⟨rfl, hA⟩
  · intro env hands s s2 h hA hA2
    unfold onResults at h
    split_ifs at h
    · have he := Option.some.inj h
      rw [← he] at hA2
      simp at hA2
    · rcases hpf : pinchFold env hands false s with _ | anys1
      · rw [hpf] at h
        exact Option.noConfusion h
      · obtain ⟨any, s1⟩ := anys1
        rw [hpf] at h
        have hfp : framePost env hands (releaseStage any s1) = some s2 := h
        obtain ⟨ws1, hw1⟩ := pinchFold_active env hands false s any s1 hA hpf
        have hA1 : s1.pinchActive = true := by rw [hw1]; exact hA
        unfold framePost at hfp
        rcases hds : detectSwipes env.now hands (releaseStage any s1) with _ | s3
        · rw [hds] at hfp
          exact Option.noConfusion hfp
        · rw [hds] at hfp
          have hfp2 : (if s3.mode = Mode.tryon ∧ s3.photoReady = true ∧
              ¬s3.isCountingDown = true then detectThumbGestures env.now hands s3
              else some s3) = some s2 := hfp
          have hkp := detectSwipes_keep env.now hands (releaseStage any s1) s3 hds
          split_ifs at hfp2 with hcond
          · have tk := detectThumbGestures_keep env.now hands s3 s2 hfp2
            rcases releaseStage_cases any s1 with hrel | hrel
            · rw [hrel] at hds
              have hdg3 := (detectSwipes_active env.now hands s1 s3 hA1 hds).1
              rw [tk.1, hdg3, hw1]
            · exfalso
              rw [tk.2.1.trans hkp.1, hrel] at hA2
              exact Bool.noConfusion hA2
          · have he := Option.some.inj hfp2
            subst he
            rcases releaseStage_cases any s1 with hrel | hrel
            · rw [hrel] at hds
              rw [(detectSwipes_active env.now hands s1 s3 hA1 hds).1, hw1]
            · exfalso
              rw [hkp.1, hrel] at hA2
              exact Bool.noConfusion hA2

/-- the all-zero landmark point. -/
def pt0 : Pt := ⟨0, 0, 0⟩

/-- a full 21-landmark hand, all points at the origin: a pinching hand
(pinch strength 0 is below the absolute 0.05 floor). -/
def flatHand : List Pt := List.replicate 21 pt0

/-- a frame environment: a 1000 × 600 mirror and window, no buttons,
`Date.now() = 10000`. -/
def env0 : Env := ⟨⟨0, 0, 1000, 600⟩, 1000, 600, [], 10000⟩

/-- the engine's initial state (script.js:17-40). -/
def state0 : EngineState :=
  ⟨Option.none, false, PinchMode.pnone, false, 0, Mode.mirror, Option.none, 0,
   Option.none, 0, 0, false, 0, false, false, [], []⟩

/-- an active drag session bound to widget id `a`, in edit mode. -/
def stateW : EngineState :=
  { state0 with pinchActive := true, pinchMode := PinchMode.drag,
                draggingId := some "a", editMode := true }

/-- the state `onResults` produces from `stateW` on a one-pinching-hand
frame: only the swipe tracker fields are initialized. -/
def stateWF : EngineState :=
  { stateW with swipeStartX := some 1, swipeStartTime := 10000, lastSwipeX := some 1 }

set_option maxRecDepth 8000 in
lemma c5_frame_eval : onResults env0 [flatHand] stateW = some stateWF := by
  have h1 : processPinch env0 flatHand stateW = some (true, stateW) := by
    with_unfolding_all decide
  have h2 : pinchFold env0 [flatHand] false stateW = some (true, stateW) := by
    unfold pinchFold
    rw [h1]
    exact rfl
  have h3 : releaseStage true stateW = stateW := by
    with_unfolding_all decide
  have h4 : swipeStep env0.now flatHand stateW = some stateWF := by
    have hget8 : flatHand.get? 8 = some pt0 := by with_unfolding_all decide
    unfold swipeStep
    rw [hget8]
    show some { stateW with
                  swipeStartX := some (1 - pt0.x)
                  swipeStartTime := env0.now
                  lastSwipeX := some (1 - pt0.x) } = some stateWF
    rw [show (1 : ℚ) - pt0.x = 1 from by norm_num [pt0]]
    simp only [stateWF, env0]
  have h5 : detectSwipes env0.now [flatHand] stateW = some stateWF := by
    unfold detectSwipes
    rw [h4]
    exact rfl
  have h6 : framePost env0 [flatHand] stateW = some stateWF := by
    unfold framePost
    rw [h5]
    show (if stateWF.mode = Mode.tryon ∧ stateWF.photoReady = true ∧
        ¬stateWF.isCountingDown = true then detectThumbGestures env0.now [flatHand] stateWF
        else some stateWF) = some stateWF
    rw [if_neg]
    simp [stateWF, stateW, state0]
  unfold onResults
  rw [if_neg]
  · rw [h2]
    show framePost env0 [flatHand] (releaseStage true stateW) = some stateWF
    rw [h3, h6]
  · simp

/-- witness for C5: a concrete frame with a pinching hand, processed from an
active bound session, keeps the session active and the binding intact. -/
theorem c5_witness :
    stateW.pinchActive = true ∧ stateWF.pinchActive = true ∧
    stateWF.draggingId = stateW.draggingId := by
  refine ⟨rfl, rfl, ?_⟩
  exact c5_drag_binding_stable.2 env0 [flatHand] stateW stateWF c5_frame_eval rfl rfl

/-! ## Button cooldown (C6) -/

lemma startWidgetPhase_keep (pmx pmy : ℚ) (s : EngineState) :
    (startWidgetPhase pmx pmy s).fired = s.fired ∧
    (startWidgetPhase pmx pmy s).lastButtonPress = s.lastButtonPress ∧
    (startWidgetPhase pmx pmy s).pinchActive = s.pinchActive := by
  unfold startWidgetPhase
  split
  · cases hW : widgetUnderPoint pmx pmy s.widgets
    · exact ⟨rfl, rfl, rfl⟩
    · exact ⟨rfl, rfl, rfl⟩
  · exact ⟨rfl, rfl, rfl⟩

lemma dragMove_keep (pmx pmy : ℚ) (s : EngineState) :
    (dragMove pmx pmy s).fired = s.fired ∧
    (dragMove pmx pmy s).lastButtonPress = s.lastButtonPress ∧
    (dragMove pmx pmy s).pinchActive = s.pinchActive := by
  obtain ⟨ws, hw⟩ := dragMove_shape pmx pmy s
  rw [hw]
  exact ⟨rfl, rfl, rfl⟩

lemma pinchCore_fire_cases (env : Env) (t i p b : Pt) (s : EngineState) :
    ((pinchCore env t i p b s).2.fired = s.fired ∧
     (pinchCore env t i p b s).2.lastButtonPress = s.lastButtonPress ∧
     (pinchCore env t i p b s).2.pinchActive = (s.pinchActive || (pinchCore env t i p b s).1)) ∨
    (s.pinchActive = false ∧ isPinchingB t i p b = true ∧
     env.now - s.lastButtonPress > BUTTON_COOLDOWN_MS ∧
     (pinchCore env t i p b s).2.lastButtonPress = env.now ∧
     (pinchCore env t i p b s).2.pinchActive = true ∧
     ∃ bt, hitTestButtons (uiX env s.mode i) (uiY env i) env.buttons = some bt ∧
       (pinchCore env t i p b s).2.fired = (env.now, bt.action) :: s.fired) := by
  cases hp : isPinchingB t i p b
  · have heq : pinchCore env t i p b s = (false, s) := by
      simp [pinchCore, hp]
    rw [heq]
    exact Or.inl ⟨rfl, rfl, by rw [Bool.or_false]⟩
  · cases hA : s.pinchActive
    · rcases hbt : hitTestButtons (uiX env s.mode i) (uiY env i) env.buttons with _ | bt
      · have heq : pinchCore env t i p b s =
            (true, dragMove (mirrorX env s.mode i) (mirrorY env i)
              (startWidgetPhase (mirrorX env s.mode i) (mirrorY env i)
                { s with pinchActive := true, pinchMode := PinchMode.idle })) := by
          simp [pinchCore, hp, hA, hbt]
        rw [heq]
        obtain ⟨w1, w2, w3⟩ := startWidgetPhase_keep (mirrorX env s.mode i) (mirrorY env i)
          { s with pinchActive := true, pinchMode := PinchMode.idle }
        obtain ⟨d1, d2, d3⟩ := dragMove_keep (mirrorX env s.mode i) (mirrorY env i)
          (startWidgetPhase (mirrorX env s.mode i) (mirrorY env i)
            { s with pinchActive := true, pinchMode := PinchMode.idle })
        exact Or.inl ⟨d1.trans w1, d2.trans w2, by rw [d3, w3, Bool.or_true]⟩
      · by_cases hcool : env.now - s.lastButtonPress > BUTTON_COOLDOWN_MS
        · have heq : pinchCore env t i p b s =
              (true,
                { runAction bt.action { s with pinchActive := true, pinchMode := PinchMode.idle } with
                    fired := (env.now, bt.action) ::
                      (runAction bt.action
                        { s with pinchActive := true, pinchMode := PinchMode.idle }).fired
                    lastButtonPress := env.now
                    pinchMode := PinchMode.button }) := by
            simp [pinchCore, hp, hA, hbt, hcool]
          rw [heq]
          obtain ⟨r1, r2, r3, r4, r5, r6, r7, r8, r9, r10⟩ :=
            runAction_core bt.action { s with pinchActive := true, pinchMode := PinchMode.idle }
          refine Or.inr ⟨rfl, rfl, hcool, rfl, ?_, bt, rfl, ?_⟩
          · show (runAction bt.action
              { s with pinchActive := true, pinchMode := PinchMode.idle }).pinchActive = true
            rw [r1]
          · show (env.now, bt.action) ::
              (runAction bt.action
                { s with pinchActive := true, pinchMode := PinchMode.idle }).fired =
              (env.now, bt.action) :: s.fired
            rw [r10]
        · have heq : pinchCore env t i p b s =
              (true, dragMove (mirrorX env s.mode i) (mirrorY env i)
                (startWidgetPhase (mirrorX env s.mode i) (mirrorY env i)
                  { s with pinchActive := true, pinchMode := PinchMode.idle })) := by
            simp [pinchCore, hp, hA, hbt, hcool]
          rw [heq]
          obtain ⟨w1, w2, w3⟩ := startWidgetPhase_keep (mirrorX env s.mode i) (mirrorY env i)
            { s with pinchActive := true, pinchMode := PinchMode.idle }
          obtain ⟨d1, d2, d3⟩ := dragMove_keep (mirrorX env s.mode i) (mirrorY env i)
            (startWidgetPhase (mirrorX env s.mode i) (mirrorY env i)
              { s with pinchActive := true, pinchMode := PinchMode.idle })
          exact Or.inl ⟨d1.trans w1, d2.trans w2, by rw [d3, w3, Bool.or_true]⟩
    · have heq : pinchCore env t i p b s =
          (true, dragMove (mirrorX env s.mode i) (mirrorY env i) s) := by
        simp [pinchCore, hp, hA]
      rw [heq]
      obtain ⟨d1, d2, d3⟩ := dragMove_keep (mirrorX env s.mode i) (mirrorY env i) s
      exact Or.inl ⟨d1, d2, by rw [d3, hA, Bool.or_true]⟩

lemma processPinch_fire_cases (env : Env) (l : List Pt) (s : EngineState) (pr : Bool)
    (s1 : EngineState) (h : processPinch env l s = some (pr, s1)) :
    (s1.fired = s.fired ∧ s1.lastButtonPress = s.lastButtonPress ∧
     s1.pinchActive = (s.pinchActive || pr)) ∨
    (s.pinchActive = false ∧ env.now - s.lastButtonPress > BUTTON_COOLDOWN_MS ∧
     s1.lastButtonPress = env.now ∧ s1.pinchActive = true ∧
     ∃ bt : ButtonEl, s1.fired = (env.now, bt.action) :: s.fired) := by
  obtain ⟨t, i, p, b, _, _, _, _, hpc⟩ := processPinch_eq env l s pr s1 h
  rcases pinchCore_fire_cases env t i p b s with ⟨f1, f2, f3⟩ | ⟨a1, a2, a3, a4, a5, bt, _, a6⟩
  · rw [hpc] at f1 f2 f3
    exact Or.inl ⟨f1, f2, f3⟩
  · rw [hpc] at a4 a5 a6
    exact Or.inr ⟨a1, a3, a4, a5, bt, a6⟩

lemma pinchFold_fired (env : Env) :
    ∀ (hands : List (List Pt)) (any : Bool) (s : EngineState) (any2 : Bool)
      (s2 : EngineState), pinchFold env hands any s = some (any2, s2) →
      (s2.fired = s.fired ∧ s2.lastButtonPress = s.lastButtonPress) ∨
      (s.pinchActive = false ∧ env.now - s.lastButtonPress > BUTTON_COOLDOWN_MS ∧
       s2.lastButtonPress = env.now ∧ s2.pinchActive = true ∧
       ∃ bt : ButtonEl, s2.fired = (env.now, bt.action) :: s.fired) := by
  intro hands
  induction hands with
  | nil =>
    intro any s any2 s2 h
    obtain ⟨h1, h2⟩ := Prod.mk.injEq .. ▸ Option.some.inj h
    exact Or.inl ⟨by rw [← h2], by rw [← h2]⟩
  | cons l rest ih =>
    intro any s any2 s2 h
    unfold pinchFold at h
    rcases hp : processPinch env l s with _ | prs1
    · rw [hp] at h
      exact Option.noConfusion h
    · obtain ⟨pr, s1⟩ := prs1
      rw [hp] at h
      rcases processPinch_fire_cases env l s pr s1 hp with ⟨f1, f2, f3⟩ | ⟨a1, a2, a3, a4, bt, a5⟩
      · rcases ih (any || pr) s1 any2 s2 h with ⟨g1, g2⟩ | ⟨b1, b2, b3, b4, bt, b5⟩
        · exact Or.inl ⟨g1.trans f1, g2.trans f2⟩
        · right
          have hsA : s.pinchActive = false := by
            rw [f3] at b1
            exact (Bool.or_eq_false_iff.mp b1).1
          refine ⟨hsA, by rw [← f2]; exact b2, b3, b4, bt, by rw [b5, f1]⟩
      · rcases ih (any || pr) s1 any2 s2 h with ⟨g1, g2⟩ | ⟨b1, b2, b3, b4, bt2, b5⟩
        · right
          have hpa2 : s2.pinchActive = true := by
            obtain ⟨ws, hw⟩ := pinchFold_active env rest (any || pr) s1 any2 s2 a4 h
            rw [hw]
            exact a4
          exact ⟨a1, a2, g2.trans a3, hpa2, bt, by rw [g1, a5]⟩
        · rw [a4] at b1
          exact Bool.noConfusion b1

lemma framePost_fired (env : Env) (hands : List (List Pt)) (s2in s2 : EngineState)
    (h : framePost env hands s2in = some s2) :
    s2.fired = s2in.fired ∧ s2.lastButtonPress = s2in.lastButtonPress := by
  unfold framePost at h
  rcases hds : detectSwipes env.now hands s2in with _ | s3
  · rw [hds] at h
    exact Option.noConfusion h
  · rw [hds] at h
    have h2 : (if s3.mode = Mode.tryon ∧ s3.photoReady = true ∧ ¬s3.isCountingDown = true
        then detectThumbGestures env.now hands s3 else some s3) = some s2 := h
    obtain ⟨k1, k2, k3, k4, k5, k6⟩ := detectSwipes_keep env.now hands s2in s3 hds
    split_ifs at h2
    · obtain ⟨t1, t2, t3, t4, t5, t6, t7, t8⟩ := detectThumbGestures_keep env.now hands s3 s2 h2
      exact ⟨t8.trans k4, t5.trans k3⟩
    · have he := Option.some.inj h2
      subst he
      exact ⟨k4, k3⟩

lemma releaseStage_fired (any : Bool) (s1 : EngineState) :
    (releaseStage any s1).fired = s1.fired ∧
    (releaseStage any s1).lastButtonPress = s1.lastButtonPress := by
  obtain ⟨pa, dg, pm, ws, hw⟩ := releaseStage_shape any s1
  rw [hw]
  exact ⟨rfl, rfl⟩

/-- C6: a button action fires at most once per 800ms cooldown window.
Per hand (the `processPinch` body): a button activation — an entry added to
the ghost trace — happens only on a pinch-start transition (session
inactive, pinch classified) whose mapped pointer hits a button, and only if
more than the cooldown has elapsed since the previous press; firing resets
the cooldown timestamp.  Per frame (`onResults`): with a session already
active (a sustained pinch) nothing fires; a frame that fires records the
press time as the new cooldown timestamp, so two firings are always more
than the cooldown apart. -/
theorem c6_button_cooldown :
    (∀ (env : Env) (t i p b : Pt) (s : EngineState),
      (pinchCore env t i p b s).2.fired ≠ s.fired →
      s.pinchActive = false ∧ isPinchingB t i p b = true ∧
      env.now - s.lastButtonPress > BUTTON_COOLDOWN_MS ∧
      (pinchCore env t i p b s).2.lastButtonPress = env.now ∧
      ∃ bt, hitTestButtons (uiX env s.mode i) (uiY env i) env.buttons = some bt ∧
        (pinchCore env t i p b s).2.fired = (env.now, bt.action) :: s.fired) ∧
    (∀ (env : Env) (hands : List (List Pt)) (s s2 : EngineState),
      onResults env hands s = some s2 →
      (s.pinchActive = true → s2.fired = s.fired ∧ s2.lastButtonPress = s.lastButtonPress) ∧
      (s2.fired = s.fired → s2.lastButtonPress = s.lastButtonPress) ∧
      (s2.fired ≠ s.fired →
        s.pinchActive = false ∧ env.now - s.lastButtonPress > BUTTON_COOLDOWN_MS ∧
        s2.lastButtonPress = env.now ∧
        ∃ bt : ButtonEl, s2.fired = (env.now, bt.action) :: s.fired)) := by
  constructor
  · intro env t i p b s hne
    rcases pinchCore_fire_cases env t i p b s with ⟨f1, _, _⟩ | ⟨a1, a2, a3, a4, _, bt, hbt, a6⟩
    · exact absurd f1 hne
    · exact ⟨a1, a2, a3, a4, bt, hbt, a6⟩
  · intro env hands s s2 h
    unfold onResults at h
    split_ifs at h
    · have he := Option.some.inj h
      have hf : s2.fired = s.fired := by rw [← he]
      have hl : s2.lastButtonPress = s.lastButtonPress := by rw [← he]
      exact ⟨fun _ => ⟨hf, hl⟩, fun _ => hl, fun hne => absurd hf hne⟩
    · rcases hpf : pinchFold env hands false s with _ | anys1
      · rw [hpf] at h
        exact Option.noConfusion h
      · obtain ⟨any, s1⟩ := anys1
        rw [hpf] at h
        have hfp : framePost env hands (releaseStage any s1) = some s2 := h
        obtain ⟨p1, p2⟩ := framePost_fired env hands (releaseStage any s1) s2 hfp
        obtain ⟨r1, r2⟩ := releaseStage_fired any s1
        have hf1 : s2.fired = s1.fired := p1.trans r1
        have hl1 : s2.lastButtonPress = s1.lastButtonPress := p2.trans r2
        rcases pinchFold_fired env hands false s any s1 hpf with ⟨g1, g2⟩ | ⟨b1, b2, b3, b4, bt, b5⟩
        · have hf : s2.fired = s.fired := hf1.trans g1
          have hl : s2.lastButtonPress = s.lastButtonPress := hl1.trans g2
          exact ⟨fun _ => ⟨hf, hl⟩, fun _ => hl, fun hne => absurd hf hne⟩
        · refine ⟨fun hA => absurd hA (by rw [b1]; exact Bool.false_ne_true), ?_, ?_⟩
          · intro hfe
            exfalso
            rw [hf1, b5] at hfe
            exact List.cons_ne_self _ _ hfe
          · intro _
            exact ⟨b1, b2, hl1.trans b3, bt, hf1.trans b5⟩

/-- a visible shutter-bar button whose expanded rectangle contains the
mapped pointer of the all-zero hand (window point `(1000, 0)`). -/
def btnFire : ButtonEl := ⟨"reset", ⟨950, -30, 100, 50⟩, "flex", "visible", "1", "auto"⟩

/-- the frame environment with the one button under the pointer. -/
def envB : Env := ⟨⟨0, 0, 1000, 600⟩, 1000, 600, [btnFire], 10000⟩

/-- witness for C6: from the idle initial state, the all-zero pinching hand
presses the button — the theorem then yields the pinch-start condition, the
elapsed cooldown, and the reset of the cooldown timestamp. -/
theorem c6_witness :
    state0.pinchActive = false ∧
    envB.now - state0.lastButtonPress > BUTTON_COOLDOWN_MS ∧
    (pinchCore envB pt0 pt0 pt0 pt0 state0).2.lastButtonPress = envB.now := by
  have h := c6_button_cooldown.1 envB pt0 pt0 pt0 pt0 state0 (by with_unfolding_all decide)
  exact ⟨h.1, h.2.2.1, h.2.2.2.1⟩

/-! ## Swipe mode switching (C7) -/

lemma setMode_mode (m : Mode) (s : EngineState) : (setMode m s).mode = m := by
  unfold setMode setEditMode hidePhotoPreview
  split
  next hm => exact (hm ▸ rfl : s.mode = m)
  next =>
    cases m
    · rfl
    · simp

/-- C7: a swipe mode switch fires only when no pinch session is active (so
never during a drag), the time since the last successful swipe strictly
exceeds the cooldown, the elapsed swipe time is within the maximum window,
and the horizontal travel `dx = (1 - index.x) - swipeStart` exceeds the
positive threshold in mirror mode (switching to try-on) or falls below its
negative in try-on mode (switching to mirror) — one direction per mode.
At the frame level, `detectSwipes` never changes the mode while the pinch
session is active. -/
theorem c7_swipe_mode_switch :
    (∀ (now : ℤ) (l : List Pt) (s s1 : EngineState),
      swipeStep now l s = some s1 → s1.mode ≠ s.mode →
      s.pinchActive = false ∧ now - s.lastSwipeTime > SWIPE_COOLDOWN_MS ∧
      now - s.swipeStartTime ≤ SWIPE_TIME_MAX ∧
      ∃ sx i8, s.swipeStartX = some sx ∧ l.get? 8 = some i8 ∧
        ((1 - i8.x - sx > SWIPE_THRESHOLD ∧ s.mode = Mode.mirror ∧ s1.mode = Mode.tryon) ∨
         (1 - i8.x - sx < -SWIPE_THRESHOLD ∧ s.mode = Mode.tryon ∧ s1.mode = Mode.mirror))) ∧
    (∀ (now : ℤ) (hands : List (List Pt)) (s s2 : EngineState),
      s.pinchActive = true → detectSwipes now hands s = some s2 → s2.mode = s.mode) := by
  constructor
  · intro now l s s1 h hne
    rcases h8 : l.get? 8 with _ | i8
    · rw [swipeStep, h8] at h
      exact Option.noConfusion h
    · rcases hsx : s.swipeStartX with _ | sx
      · simp only [swipeStep, h8, hsx, Option.some.injEq] at h
        exact absurd (by rw [← h]) hne
      · simp only [swipeStep, h8, hsx, Option.some.injEq] at h
        by_cases hC : ¬s.pinchActive = true ∧ now - s.lastSwipeTime > SWIPE_COOLDOWN_MS ∧
            now - s.swipeStartTime ≤ SWIPE_TIME_MAX
        · rw [if_pos hC] at h
          have hpa : s.pinchActive = false := by
            cases hb : s.pinchActive
            · rfl
            · exact absurd hb hC.1
          by_cases hD1 : 1 - i8.x - sx > SWIPE_THRESHOLD ∧ s.mode = Mode.mirror
          · rw [if_pos hD1] at h
            refine ⟨hpa, hC.2.1, hC.2.2, sx, i8, rfl, rfl, Or.inl ⟨hD1.1, hD1.2, ?_⟩⟩
            rw [← h]
            split_ifs <;> simp [setMode_mode]
          · rw [if_neg hD1] at h
            by_cases hD2 : 1 - i8.x - sx < -SWIPE_THRESHOLD ∧ s.mode = Mode.tryon
            · rw [if_pos hD2] at h
              refine ⟨hpa, hC.2.1, hC.2.2, sx, i8, rfl, rfl, Or.inr ⟨hD2.1, hD2.2, ?_⟩⟩
              rw [← h]
              split_ifs <;> simp [setMode_mode]
            · rw [if_neg hD2] at h
              refine absurd ?_ hne
              rw [← h]
              split_ifs <;> rfl
        · rw [if_neg hC] at h
          refine absurd ?_ hne
          rw [← h]
          split_ifs <;> rfl
  · intro now hands s s2 hA h
    exact (detectSwipes_active now hands s s2 hA h).2.1

/-- a 21-landmark hand whose index fingertip sits at x = 1/4, i.e. at
mirrored x = 3/4. -/
def swHand : List Pt := List.replicate 21 ⟨1 / 4, 0, 0⟩

/-- a mirror-mode state mid-swipe: baseline x = 1/2 anchored 200ms ago,
cooldown long expired. -/
def stateSw : EngineState :=
  { state0 with swipeStartX := some (1 / 2), swipeStartTime := 9800,
                lastSwipeX := some (1 / 2) }

/-- the state after the qualifying rightward swipe: try-on mode, cooldown
stamped, trackers reset. -/
def stateSwF : EngineState :=
  { state0 with mode := Mode.tryon, lastSwipeTime := 10000, lastSwipeX := some (3 / 4) }

lemma c7_step_eval : swipeStep 10000 swHand stateSw = some stateSwF := by
  have hget8 : swHand.get? 8 = some ⟨1 / 4, 0, 0⟩ := by with_unfolding_all decide
  have hsx : stateSw.swipeStartX = some (1 / 2) := rfl
  have hlx : stateSw.lastSwipeX = some (1 / 2) := rfl
  simp only [swipeStep, hget8, hsx, hlx, Option.some.injEq]
  norm_num [stateSw, state0, stateSwF, setMode, setEditMode, hidePhotoPreview,
    SWIPE_TIME_MAX, SWIPE_COOLDOWN_MS, SWIPE_THRESHOLD]
  split_ifs with hmt <;> simp_all

/-- witness for C7: a concrete qualifying swipe (dx = 1/4 over 200ms,
cooldown expired, mirror mode, no pinch) switches to try-on; the theorem
yields exactly the firing conditions. -/
theorem c7_witness :
    stateSw.pinchActive = false ∧
    (10000 : ℤ) - stateSw.lastSwipeTime > SWIPE_COOLDOWN_MS ∧
    (10000 : ℤ) - stateSw.swipeStartTime ≤ SWIPE_TIME_MAX := by
  have h := c7_swipe_mode_switch.1 10000 swHand stateSw stateSwF c7_step_eval
    (by simp [stateSwF, stateSw, state0])
  exact ⟨h.1, h.2.1, h.2.2.1⟩

/-! ## Short landmark lists (C4) -/

lemma processPinch_none_of_bad (env : Env) (l : List Pt) (s : EngineState)
    (h : l.get? 0 = Option.none ∨ l.get? 4 = Option.none ∨
      l.get? 8 = Option.none ∨ l.get? 9 = Option.none) :
    processPinch env l s = Option.none := by
  rcases hp : processPinch env l s with _ | prs1
  · rfl
  · exfalso
    obtain ⟨pr, s1⟩ := prs1
    obtain ⟨t, i, p, b, h4, h8, h0, h9, _⟩ := processPinch_eq env l s pr s1 hp
    rcases h with h | h | h | h
    · rw [h] at h0
      exact Option.noConfusion h0
    · rw [h] at h4
      exact Option.noConfusion h4
    · rw [h] at h8
      exact Option.noConfusion h8
    · rw [h] at h9
      exact Option.noConfusion h9

lemma pinchFold_none (env : Env) :
    ∀ (hands : List (List Pt)) (any : Bool) (s : EngineState),
      (∃ h ∈ hands, h.get? 0 = Option.none ∨ h.get? 4 = Option.none ∨
        h.get? 8 = Option.none ∨ h.get? 9 = Option.none) →
      pinchFold env hands any s = Option.none := by
  intro hands
  induction hands with
  | nil =>
    intro any s hex
    obtain ⟨hh, hmem, _⟩ := hex
    exact absurd hmem (List.not_mem_nil hh)
  | cons l rest ih =>
    intro any s hex
    obtain ⟨hh, hmem, hbad⟩ := hex
    unfold pinchFold
    rcases List.mem_cons.mp hmem with rfl | hmem2
    · rw [processPinch_none_of_bad env hh s hbad]
    · rcases hp : processPinch env l s with _ | prs1
      · rfl
      · obtain ⟨pr, s1⟩ := prs1
        exact ih (any || pr) s1 ⟨hh, hmem2, hbad⟩

lemma get?_some_of_len {l : List Pt} {n : ℕ} (hlen : 21 ≤ l.length) (hn : n < 21) :
    ∃ pt, l.get? n = some pt := by
  rcases hg : l.get? n with _ | pt
  · have hle := List.get?_eq_none.mp hg
    omega
  · exact ⟨pt, rfl⟩

lemma processPinch_total (env : Env) (l : List Pt) (s : EngineState)
    (hlen : 21 ≤ l.length) : ∃ pr s1, processPinch env l s = some (pr, s1) := by
  obtain ⟨t, h4⟩ := get?_some_of_len hlen (by norm_num : (4 : ℕ) < 21)
  obtain ⟨i, h8⟩ := get?_some_of_len hlen (by norm_num : (8 : ℕ) < 21)
  obtain ⟨p, h0⟩ := get?_some_of_len hlen (by norm_num : (0 : ℕ) < 21)
  obtain ⟨b, h9⟩ := get?_some_of_len hlen (by norm_num : (9 : ℕ) < 21)
  unfold processPinch
  rw [h4, h8, h0, h9]
  exact ⟨_, _, rfl⟩

lemma pinchFold_total (env : Env) :
    ∀ (hands : List (List Pt)), (∀ h ∈ hands, 21 ≤ h.length) →
      ∀ (any : Bool) (s : EngineState), ∃ r, pinchFold env hands any s = some r := by
  intro hands
  induction hands with
  | nil =>
    intro _ any s
    exact ⟨(any, s), rfl⟩
  | cons l rest ih =>
    intro hval any s
    obtain ⟨pr, s1, hp⟩ := processPinch_total env l s (hval l (List.mem_cons_self l rest))
    obtain ⟨r, hr⟩ := ih (fun h hh => hval h (List.mem_cons_of_mem l hh)) (any || pr) s1
    refine ⟨r, ?_⟩
    unfold pinchFold
    rw [hp]
    exact hr

lemma swipeStep_total (now : ℤ) (l : List Pt) (s : EngineState) (hlen : 21 ≤ l.length) :
    ∃ s1, swipeStep now l s = some s1 := by
  obtain ⟨i8, h8⟩ := get?_some_of_len hlen (by norm_num : (8 : ℕ) < 21)
  unfold swipeStep
  rw [h8]
  cases s.swipeStartX
  · exact ⟨_, rfl⟩
  · exact ⟨_, rfl⟩

lemma detectSwipes_total (now : ℤ) :
    ∀ (hands : List (List Pt)), (∀ h ∈ hands, 21 ≤ h.length) →
      ∀ s : EngineState, ∃ s2, detectSwipes now hands s = some s2 := by
  intro hands
  induction hands with
  | nil =>
    intro _ s
    exact ⟨s, rfl⟩
  | cons l rest ih =>
    intro hval s
    obtain ⟨s1, hs1⟩ := swipeStep_total now l s (hval l (List.mem_cons_self l rest))
    obtain ⟨s2, hs2⟩ := ih (fun h hh => hval h (List.mem_cons_of_mem l hh)) s1
    refine ⟨s2, ?_⟩
    unfold detectSwipes
    rw [hs1]
    exact hs2

lemma fingersFoldedM_total (l : List Pt) (hlen : 21 ≤ l.length) :
    ∃ bv, fingersFoldedM l = some bv := by
  obtain ⟨t1, hg8⟩ := get?_some_of_len hlen (by norm_num : (8 : ℕ) < 21)
  obtain ⟨p1, hg6⟩ := get?_some_of_len hlen (by norm_num : (6 : ℕ) < 21)
  obtain ⟨t2, hg12⟩ := get?_some_of_len hlen (by norm_num : (12 : ℕ) < 21)
  obtain ⟨p2, hg10⟩ := get?_some_of_len hlen (by norm_num : (10 : ℕ) < 21)
  obtain ⟨t3, hg16⟩ := get?_some_of_len hlen (by norm_num : (16 : ℕ) < 21)
  obtain ⟨p3, hg14⟩ := get?_some_of_len hlen (by norm_num : (14 : ℕ) < 21)
  obtain ⟨t4, hg20⟩ := get?_some_of_len hlen (by norm_num : (20 : ℕ) < 21)
  obtain ⟨p4, hg18⟩ := get?_some_of_len hlen (by norm_num : (18 : ℕ) < 21)
  unfold fingersFoldedM
  simp only [hg8, hg6, hg12, hg10, hg16, hg14, hg20, hg18]
  split_ifs <;> exact ⟨_, rfl⟩

lemma thumbLoop_total (now : ℤ) :
    ∀ (hs : List (List Pt)), (∀ h ∈ hs, 21 ≤ h.length) →
      ∀ s : EngineState, ∃ s2, thumbLoop now s hs = some s2 := by
  intro hs
  induction hs with
  | nil =>
    intro _ s
    exact ⟨s, rfl⟩
  | cons l rest ih =>
    intro hval s
    have hlen := hval l (List.mem_cons_self l rest)
    obtain ⟨bv, hbv⟩ := fingersFoldedM_total l hlen
    unfold thumbLoop
    rw [hbv]
    cases bv
    · simp only [Bool.not_false, if_true]
      exact ih (fun h hh => hval h (List.mem_cons_of_mem l hh)) s
    · simp only [Bool.not_true, Bool.false_eq_true, if_false]
      obtain ⟨t4, hg4⟩ := get?_some_of_len hlen (by norm_num : (4 : ℕ) < 21)
      obtain ⟨t2, hg2⟩ := get?_some_of_len hlen (by norm_num : (2 : ℕ) < 21)
      obtain ⟨t0, hg0⟩ := get?_some_of_len hlen (by norm_num : (0 : ℕ) < 21)
      simp only [hg4, hg2, hg0]
      split_ifs
      · exact ⟨_, rfl⟩
      · exact ⟨_, rfl⟩
      · exact ih (fun h hh => hval h (List.mem_cons_of_mem l hh)) s

lemma framePost_total (env : Env) (hands : List (List Pt))
    (hval : ∀ h ∈ hands, 21 ≤ h.length) (s2 : EngineState) :
    ∃ s3, framePost env hands s2 = some s3 := by
  obtain ⟨sA, hsA⟩ := detectSwipes_total env.now hands hval s2
  unfold framePost
  rw [hsA]
  show ∃ s3, (if sA.mode = Mode.tryon ∧ sA.photoReady = true ∧ ¬sA.isCountingDown = true
    then detectThumbGestures env.now hands sA else some sA) = some s3
  split_ifs
  · unfold detectThumbGestures
    split_ifs
    · exact ⟨sA, rfl⟩
    · exact thumbLoop_total env.now hands hval sA
  · exact ⟨sA, rfl⟩

/-- counterexample to C4 as stated: a frame holding an empty hand
observation and a full hand faults — `processPinch` reads a missing
landmark, the exception aborts the whole callback, and the full hand is
never processed. -/
theorem c4_counterexample : onResults env0 [[], flatHand] state0 = Option.none := by
  have h1 : processPinch env0 [] state0 = Option.none := rfl
  unfold onResults
  rw [if_neg (by simp : ¬([[], flatHand] : List (List Pt)).isEmpty = true)]
  have h2 : pinchFold env0 [[], flatHand] false state0 = Option.none := by
    unfold pinchFold
    rw [h1]
  rw [h2]

/-- C4 amended: per-frame processing does not guard against short landmark
lists.  A hand observation missing any of the required landmarks (indices
0, 4, 8, 9) makes the per-hand pinch processing fault, which aborts the
processing of every hand in that frame; frames whose hands all carry the
full 21 landmarks are processed without fault. -/
theorem c4_short_hand_fault :
    (∀ (env : Env) (hands : List (List Pt)) (s : EngineState), hands ≠ [] →
      (∃ h ∈ hands, h.get? 0 = Option.none ∨ h.get? 4 = Option.none ∨
        h.get? 8 = Option.none ∨ h.get? 9 = Option.none) →
      onResults env hands s = Option.none) ∧
    (∀ (env : Env) (hands : List (List Pt)) (s : EngineState),
      (∀ h ∈ hands, 21 ≤ h.length) → (onResults env hands s).isSome = true) := by
  constructor
  · intro env hands s hne hex
    unfold onResults
    rw [if_neg (by simp [List.isEmpty_iff]; exact hne), pinchFold_none env hands false s hex]
  · intro env hands s hval
    unfold onResults
    split_ifs
    · rfl
    · obtain ⟨⟨any, s1⟩, hpf⟩ := pinchFold_total env hands hval false s
      rw [hpf]
      show (framePost env hands (releaseStage any s1)).isSome = true
      obtain ⟨s3, hs3⟩ := framePost_total env hands hval (releaseStage any s1)
      rw [hs3]
      rfl

/-- witness for C4's amended claim: the counterexample frame faults, while
the same frame without the empty hand is processed without fault. -/
theorem c4_witness :
    onResults env0 [[], flatHand] state0 = Option.none ∧
    (onResults env0 [flatHand] state0).isSome = true := by
  constructor
  · exact c4_short_hand_fault.1 env0 [[], flatHand] state0 (by simp)
      ⟨[], by simp, Or.inl rfl⟩
  · refine c4_short_hand_fault.2 env0 [flatHand] state0 ?_
    intro h hh
    simp only [List.mem_singleton] at hh
    rw [hh]
    simp [flatHand]

/-! ## Thumbs-down retake (C9) -/

/-- a hand the thumb-gesture loop passes over: either its fingers are not
folded, or they are but the thumb is in neither the up nor the down
configuration. -/
def skipThumbHand (l : List Pt) : Prop :=
  fingersFoldedM l = some false ∨
  (fingersFoldedM l = some true ∧ ∃ t4 t2 t0 : Pt, l.get? 4 = some t4 ∧
    l.get? 2 = some t2 ∧ l.get? 0 = some t0 ∧
    ¬(t4.y < t2.y - 0.04 ∧ t4.y < t0.y - 0.02) ∧
    ¬(t4.y > t2.y + 0.04 ∧ t4.y > t0.y + 0.02))

lemma thumbLoop_skip (now : ℤ) (s : EngineState) (l : List Pt) (rest : List (List Pt))
    (h : skipThumbHand l) : thumbLoop now s (l :: rest) = thumbLoop now s rest := by
  rcases h with h | ⟨hff, t4, t2, t0, h4, h2, h0, hup, hdn⟩
  · conv_lhs => unfold thumbLoop
    rw [h]
    rfl
  · conv_lhs => unfold thumbLoop
    rw [hff, h4, h2, h0]
    show (if t4.y < t2.y - 0.04 ∧ t4.y < t0.y - 0.02 then
        some (savePhoto { s with lastGestureTime := now })
      else if t4.y > t2.y + 0.04 ∧ t4.y > t0.y + 0.02 then
        some (retakePhoto { s with lastGestureTime := now })
      else thumbLoop now s rest) = thumbLoop now s rest
    rw [if_neg hup, if_neg hdn]

lemma thumbLoop_skip_prefix (now : ℤ) (s : EngineState) :
    ∀ (pre tl : List (List Pt)), (∀ g ∈ pre, skipThumbHand g) →
      thumbLoop now s (pre ++ tl) = thumbLoop now s tl := by
  intro pre
  induction pre with
  | nil => intro tl _; rfl
  | cons g pre ih =>
    intro tl hsk
    rw [List.cons_append,
      thumbLoop_skip now s g (pre ++ tl) (hsk g (List.mem_cons_self g pre)),
      ih tl (fun g2 hg => hsk g2 (List.mem_cons_of_mem g hg))]

/-- C9: in the photo-ready state (try-on mode, photo ready, no countdown,
gesture cooldown elapsed), when the first qualifying hand in the frame —
all earlier hands being passed over — shows a thumbs-down (all four
non-thumb fingertips folded below their mid-joints, thumb tip below both
the thumb base joint and the wrist by the fixed margins), the photo is
discarded and the engine enters a fresh 3-tick countdown without another
shutter trigger. -/
theorem c9_thumbs_down_retake :
    ∀ (now : ℤ) (pre : List (List Pt)) (hd : List Pt) (rest : List (List Pt))
      (s : EngineState),
      s.mode = Mode.tryon → s.photoReady = true → s.isCountingDown = false →
      now - s.lastGestureTime ≥ GESTURE_COOLDOWN_MS →
      (∀ g ∈ pre, skipThumbHand g) →
      fingersFoldedM hd = some true →
      (∃ t4 t2 t0 : Pt, hd.get? 4 = some t4 ∧ hd.get? 2 = some t2 ∧
        hd.get? 0 = some t0 ∧ t4.y > t2.y + 0.04 ∧ t4.y > t0.y + 0.02) →
      detectThumbGestures now (pre ++ hd :: rest) s =
        some (retakePhoto { s with lastGestureTime := now }) ∧
      (retakePhoto { s with lastGestureTime := now }).photoReady = false ∧
      (retakePhoto { s with lastGestureTime := now }).captureDataUrl = false ∧
      (retakePhoto { s with lastGestureTime := now }).isCountingDown = true ∧
      (retakePhoto { s with lastGestureTime := now }).counter = 3 ∧
      (retakePhoto { s with lastGestureTime := now }).lastGestureTime = now := by
  intro now pre hd rest s hm hpr hcd hcool hskip hff hdown
  obtain ⟨t4, t2, t0, h4, h2, h0, hy1, hy2⟩ := hdown
  refine ⟨?_, ?_, ?_, ?_, ?_, ?_⟩
  · unfold detectThumbGestures
    rw [if_neg (by omega : ¬(now - s.lastGestureTime < GESTURE_COOLDOWN_MS)),
      thumbLoop_skip_prefix now s pre (hd :: rest) hskip]
    conv_lhs => unfold thumbLoop
    rw [hff, h4, h2, h0]
    show (if t4.y < t2.y - 0.04 ∧ t4.y < t0.y - 0.02 then
        some (savePhoto { s with lastGestureTime := now })
      else if t4.y > t2.y + 0.04 ∧ t4.y > t0.y + 0.02 then
        some (retakePhoto { s with lastGestureTime := now })
      else thumbLoop now s rest) = some (retakePhoto { s with lastGestureTime := now })
    rw [if_neg (by rintro ⟨hu, _⟩; linarith), if_pos ⟨hy1, hy2⟩]
  · simp [retakePhoto, triggerShutter, hidePhotoPreview, hm, hcd]
  · simp [retakePhoto, triggerShutter, hidePhotoPreview, hm, hcd]
  · simp [retakePhoto, triggerShutter, hidePhotoPreview, hm, hcd]
  · simp [retakePhoto, triggerShutter, hidePhotoPreview, hm, hcd]
  · simp [retakePhoto, triggerShutter, hidePhotoPreview, hm, hcd]

/-- a 21-landmark thumbs-down hand: every non-thumb fingertip (8, 12, 16,
20, y = 3/5) sits below its mid joint (6, 10, 14, 18, y = 1/2) by more than
the folding margin, and the thumb tip (4, y = 3/5) sits below both the
thumb base joint (2, y = 1/2) and the wrist (0, y = 1/2) by the fixed
margins. -/
def downHand : List Pt :=
  [⟨0, 1/2, 0⟩, ⟨0, 0, 0⟩, ⟨0, 1/2, 0⟩, ⟨0, 0, 0⟩, ⟨0, 3/5, 0⟩, ⟨0, 0, 0⟩,
   ⟨0, 1/2, 0⟩, ⟨0, 0, 0⟩, ⟨0, 3/5, 0⟩, ⟨0, 0, 0⟩, ⟨0, 1/2, 0⟩, ⟨0, 0, 0⟩,
   ⟨0, 3/5, 0⟩, ⟨0, 0, 0⟩, ⟨0, 1/2, 0⟩, ⟨0, 0, 0⟩, ⟨0, 3/5, 0⟩, ⟨0, 0, 0⟩,
   ⟨0, 1/2, 0⟩, ⟨0, 0, 0⟩, ⟨0, 3/5, 0⟩]

/-- a photo-ready try-on state. -/
def photoReadyState : EngineState :=
  { state0 with mode := Mode.tryon, photoReady := true, captureDataUrl := true }

/-- witness for C9: the concrete thumbs-down hand in the photo-ready state
triggers the retake — the preview is discarded and a fresh countdown
starts. -/
theorem c9_witness :
    detectThumbGestures 10000 [downHand] photoReadyState =
      some (retakePhoto { photoReadyState with lastGestureTime := 10000 }) ∧
    (retakePhoto { photoReadyState with lastGestureTime := 10000 }).isCountingDown = true ∧
    (retakePhoto { photoReadyState with lastGestureTime := 10000 }).photoReady = false ∧
    (retakePhoto { photoReadyState with lastGestureTime := 10000 }).counter = 3 := by
  have h := c9_thumbs_down_retake 10000 [] downHand [] photoReadyState rfl rfl rfl
    (by with_unfolding_all decide) (fun g hg => absurd hg (List.not_mem_nil g))
    (by with_unfolding_all decide)
    ⟨⟨0, 3/5, 0⟩, ⟨0, 1/2, 0⟩, ⟨0, 1/2, 0⟩, rfl, rfl, rfl, by norm_num, by norm_num⟩
  exact ⟨h.1, h.2.2.2.1, h.2.1, h.2.2.2.2.1⟩

end SmartMirror
